import Mathlib

set_option maxHeartbeats 1000000

/-!
Shallow embedding of the `node-sqlite-orm` sources:
`src/builder.ts`, `src/json.ts`, `src/model-reader.ts` and the
driver (`SqliteOrm.serialize` / `SqliteOrm.deserialize`).

JavaScript runtime values are modelled by `JSVal`; JSON-safe trees
(what `jsonify` produces and `JSON.parse` yields) by `JVal`.
Machine numbers are modelled as rationals (`ℚ`), with separate
constructors for the non-finite doubles `NaN`, `Infinity`, `-Infinity`.
`vnull` models JavaScript `null`; `undefined` is conflated with `null`
wherever the sources only distinguish them through `== null`.
Fallible code returns `Except String`.
-/

/-- Column types (`ColumnType` in the driver source). -/
inductive ColumnType
  | string
  | number
  | boolean
  | json
  | integer
  | blob
deriving DecidableEq, Repr

/-- JavaScript runtime values, as far as the sources inspect them.
`vbuf` models `Buffer`/`Uint8Array` (a list of byte values),
`vmap` a `Map` (insertion-ordered entry list), `vcustom` an instance
of a class with its own enumerable properties, and
`vbigint`/`vfunc`/`vsymbol` the three kinds that `isSerializable`
(in `json.ts`) rejects. -/
inductive JSVal
  | vnull
  | vbool (b : Bool)
  | vnum (q : ℚ)
  | vnan
  | vinf
  | vninf
  | vstr (s : String)
  | varr (items : List JSVal)
  | vobj (fields : List (String × JSVal))
  | vmap (entries : List (JSVal × JSVal))
  | vbuf (bytes : List Nat)
  | vcustom (cls : String) (fields : List (String × JSVal))
  | vbigint
  | vfunc
  | vsymbol

/-- JSON-safe trees: the output domain of `jsonify`/`writeValue` and the
input domain of `dejsonify`/`readValue`.  `jnan`/`jinf`/`jninf` are kept
because `writeValue` passes every `number` through unchanged. -/
inductive JVal
  | jnull
  | jbool (b : Bool)
  | jnum (q : ℚ)
  | jnan
  | jinf
  | jninf
  | jstr (s : String)
  | jarr (items : List JVal)
  | jobj (fields : List (String × JVal))

/-! ## Base64 (model of Node's `Buffer#toString('base64')` / `Buffer.from(_, 'base64')`)

`json.ts` stores byte buffers as base64 text.  The Node builtins are
modelled by a standard base64 codec: three bytes become four sextets,
sextets become alphabet characters, and the output is padded with `=`
to a multiple of four characters. -/

def b64Alphabet : List Char :=
  "ABCDEFGHIJKLMNOPQRSTUVWXYZabcdefghijklmnopqrstuvwxyz0123456789+/".toList

def b64EncChar (n : Nat) : Char := b64Alphabet.getD n '='

def b64DecChar (c : Char) : Nat := b64Alphabet.indexOf c

def bytesToSextets : List Nat → List Nat
  | a :: b :: c :: rest =>
      a / 4 :: ((a % 4) * 16 + b / 16) :: ((b % 16) * 4 + c / 64) :: (c % 64)
        :: bytesToSextets rest
  | [a, b] => [a / 4, (a % 4) * 16 + b / 16, (b % 16) * 4]
  | [a] => [a / 4, (a % 4) * 16]
  | [] => []

def b64PadFor (len : Nat) : List Char :=
  match len % 3 with
  | 1 => ['=', '=']
  | 2 => ['=']
  | _ => []

def base64Encode (bytes : List Nat) : String :=
  String.mk ((bytesToSextets bytes).map b64EncChar ++ b64PadFor bytes.length)

def sextetsToBytes : List Nat → List Nat
  | s0 :: s1 :: s2 :: s3 :: rest =>
      (s0 * 4 + s1 / 16) :: ((s1 % 16) * 16 + s2 / 4) :: ((s2 % 4) * 64 + s3)
        :: sextetsToBytes rest
  | [s0, s1, s2] => [s0 * 4 + s1 / 16, (s1 % 16) * 16 + s2 / 4]
  | [s0, s1] => [s0 * 4 + s1 / 16]
  | _ => []

def base64Decode (s : String) : List Nat :=
  sextetsToBytes ((s.toList.filter (fun c => c ≠ '=')).map b64DecChar)

theorem sextetsToBytes_bytesToSextets :
    ∀ l : List Nat, (∀ x ∈ l, x < 256) → sextetsToBytes (bytesToSextets l) = l := by
  intro l
  induction l using bytesToSextets.induct with
  | case1 a b c rest ih =>
      intro h
      have ha : a < 256 := h a (by simp)
      have hb : b < 256 := h b (by simp)
      have hc : c < 256 := h c (by simp)
      have hrest := ih (fun x hx => h x (by simp [hx]))
      simp only [bytesToSextets, sextetsToBytes, hrest, List.cons.injEq]
      refine ⟨by omega, by omega, by omega, trivial⟩
  | case2 a b =>
      intro h
      have ha : a < 256 := h a (by simp)
      have hb : b < 256 := h b (by simp)
      simp only [bytesToSextets, sextetsToBytes, List.cons.injEq]
      refine ⟨by omega, by omega, trivial⟩
  | case3 a =>
      intro h
      have ha : a < 256 := h a (by simp)
      simp only [bytesToSextets, sextetsToBytes, List.cons.injEq]
      refine ⟨by omega, trivial⟩
  | case4 =>
      intro _
      rfl

theorem bytesToSextets_lt :
    ∀ l : List Nat, (∀ x ∈ l, x < 256) → ∀ s ∈ bytesToSextets l, s < 64 := by
  intro l
  induction l using bytesToSextets.induct with
  | case1 a b c rest ih =>
      intro h s hs
      have ha : a < 256 := h a (by simp)
      have hb : b < 256 := h b (by simp)
      have hc : c < 256 := h c (by simp)
      have hrest := ih (fun x hx => h x (by simp [hx]))
      simp only [bytesToSextets, List.mem_cons] at hs
      rcases hs with rfl | rfl | rfl | rfl | hs
      · omega
      · omega
      · omega
      · omega
      · exact hrest s hs
  | case2 a b =>
      intro h s hs
      have ha : a < 256 := h a (by simp)
      have hb : b < 256 := h b (by simp)
      simp only [bytesToSextets, List.mem_cons, List.not_mem_nil, or_false] at hs
      rcases hs with rfl | rfl | rfl <;> omega
  | case3 a =>
      intro h s hs
      have ha : a < 256 := h a (by simp)
      simp only [bytesToSextets, List.mem_cons, List.not_mem_nil, or_false] at hs
      rcases hs with rfl | rfl <;> omega
  | case4 =>
      intro _ s hs
      simp [bytesToSextets] at hs

theorem b64DecChar_encChar : ∀ n, n < 64 → b64DecChar (b64EncChar n) = n := by decide

theorem b64EncChar_ne_pad : ∀ n, n < 64 → b64EncChar n ≠ '=' := by decide

theorem base64_roundtrip :
    ∀ l : List Nat, (∀ x ∈ l, x < 256) → base64Decode (base64Encode l) = l := by
  intro l h
  have h64 := bytesToSextets_lt l h
  unfold base64Encode base64Decode
  have hmk : (String.mk ((bytesToSextets l).map b64EncChar ++ b64PadFor l.length)).toList
      = (bytesToSextets l).map b64EncChar ++ b64PadFor l.length := rfl
  rw [hmk, List.filter_append]
  have h1 : ((bytesToSextets l).map b64EncChar).filter (fun c => c ≠ '=')
      = (bytesToSextets l).map b64EncChar := by
    apply List.filter_eq_self.mpr
    intro c hc
    simp only [List.mem_map] at hc
    obtain ⟨s, hs, rfl⟩ := hc
    simpa using b64EncChar_ne_pad s (h64 s hs)
  have h2 : (b64PadFor l.length).filter (fun c => c ≠ '=') = [] := by
    unfold b64PadFor
    rcases hmod : l.length % 3 with _ | k
    · simp
    · rcases k with _ | k
      · simp
      · rcases k with _ | k <;> simp
  rw [h1, h2, List.append_nil, List.map_map]
  have h3 : (bytesToSextets l).map (b64DecChar ∘ b64EncChar) = bytesToSextets l := by
    apply List.map_congr_left ?_ |>.trans (List.map_id _)
    intro s hs
    exact b64DecChar_encChar s (h64 s hs)
  rw [h3]
  exact sextetsToBytes_bytesToSextets l h

/-! ## `json.ts`: tagged serialization -/

/-- The `serializableClasses` registry of `json.ts`: one entry per class
registered with `registerJsonSerializable`, keyed by class name, carrying
its list of ignored property names. -/
abbrev Registry := List (String × List String)

/-- Registry lookup, modelling both `find((c) => val instanceof c.classRef)`
(instances are matched by their class, identified here by name) and
`find((c) => c.classRef.name === tag)`. -/
def findClass (reg : Registry) (cls : String) : Option (List String) :=
  (reg.find? (fun c => c.1 == cls)).map (fun c => c.2)

/-- Model of `isSerializable` from `json.ts`: everything except `bigint`,
`function` and `symbol` values. -/
def isSerializable : JSVal → Bool
  | .vbigint => false
  | .vfunc => false
  | .vsymbol => false
  | _ => true

mutual

/-- Model of `writeValue` from `json.ts`.  `null` and primitives pass through; a
`Map` becomes a tagged envelope over its entry list; an `Array` is
serialized by `jsonify`; a `Buffer` becomes a base64 envelope; an
instance of a registered class becomes a `custom-<Name>` envelope whose
payload omits the ignored properties; any other object (including an
instance of an unregistered class, via its own enumerable properties)
becomes an `object` envelope.  `bigint`/`function`/`symbol` throw. -/
def writeValue (reg : Registry) : JSVal → Except String JVal
  | .vnull => .ok .jnull
  | .vbool b => .ok (.jbool b)
  | .vnum q => .ok (.jnum q)
  | .vnan => .ok .jnan
  | .vinf => .ok .jinf
  | .vninf => .ok .jninf
  | .vstr s => .ok (.jstr s)
  | .vmap entries => do
      let d ← jsonifyEntries reg entries
      pure (.jobj [("data", .jarr d), ("type", .jstr "Map")])
  | .varr items => do
      let d ← jsonifyList reg items
      pure (.jarr d)
  | .vbuf bytes =>
      .ok (.jobj [("data", .jstr (base64Encode bytes)), ("type", .jstr "Buffer")])
  | .vcustom cls fields =>
      match findClass reg cls with
      | some ignoredProps => do
          let d ← jsonifyFields reg ignoredProps fields
          pure (.jobj [("data", .jobj d), ("type", .jstr ("custom-" ++ cls))])
      | none => do
          let d ← jsonifyFields reg [] fields
          pure (.jobj [("data", .jobj d), ("type", .jstr "object")])
  | .vobj fields => do
      let d ← jsonifyFields reg [] fields
      pure (.jobj [("data", .jobj d), ("type", .jstr "object")])
  | .vbigint => .error "Cannot write object of type bigint"
  | .vfunc => .error "Cannot write object of type function"
  | .vsymbol => .error "Cannot write object of type symbol"
termination_by v => sizeOf v

/-- Model of `jsonify` on an array argument: element-wise `writeValue`, dropping
elements that are not serializable. -/
def jsonifyList (reg : Registry) : List JSVal → Except String (List JVal)
  | [] => .ok []
  | item :: rest =>
      if isSerializable item then do
        let v ← writeValue reg item
        let vs ← jsonifyList reg rest
        pure (v :: vs)
      else jsonifyList reg rest
termination_by l => sizeOf l

/-- Model of `jsonify` on an object argument: value-wise `writeValue` over the own
enumerable properties, dropping non-serializable values and ignored keys
(in that order, as in the source). -/
def jsonifyFields (reg : Registry) (ignoredProps : List String) :
    List (String × JSVal) → Except String (List (String × JVal))
  | [] => .ok []
  | (key, value) :: rest =>
      if isSerializable value then
        if ignoredProps.contains key then jsonifyFields reg ignoredProps rest
        else do
          let v ← writeValue reg value
          let vs ← jsonifyFields reg ignoredProps rest
          pure ((key, v) :: vs)
      else jsonifyFields reg ignoredProps rest
termination_by l => sizeOf l

/-- Model of `jsonify([...map.entries()])`: every entry is a two-element array,
itself serialized through the array branch of `jsonify`. -/
def jsonifyEntries (reg : Registry) : List (JSVal × JSVal) → Except String (List JVal)
  | [] => .ok []
  | (k, v) :: rest => do
      let d ← jsonifyPair reg k v
      let ds ← jsonifyEntries reg rest
      pure (.jarr d :: ds)
termination_by es => sizeOf es

/-- Model of `jsonify` on the two-element entry array `[key, value]`: a
non-serializable component is dropped, exactly as in the array branch. -/
def jsonifyPair (reg : Registry) (k v : JSVal) : Except String (List JVal) := do
  let l1 ←
    if isSerializable k then do
      let jk ← writeValue reg k
      pure [jk]
    else pure ([] : List JVal)
  let l2 ←
    if isSerializable v then do
      let jv ← writeValue reg v
      pure [jv]
    else pure ([] : List JVal)
  pure (l1 ++ l2)
termination_by sizeOf k + sizeOf v + 1

end

/-- Property access `obj[key]` on a decoded JSON object (a JavaScript
object cannot carry duplicate keys, so the first binding is the
binding). -/
def lookupField : List (String × JVal) → String → Option JVal
  | [], _ => none
  | (k, v) :: rest, key => if k = key then some v else lookupField rest key

theorem lookupField_sizeOf {fs : List (String × JVal)} {key : String} {v : JVal}
    (h : lookupField fs key = some v) : sizeOf v < sizeOf fs := by
  induction fs with
  | nil => simp [lookupField] at h
  | cons kv rest ih =>
      obtain ⟨k, w⟩ := kv
      simp only [lookupField] at h
      split at h
      · injection h with h
        subst h
        simp only [List.cons.sizeOf_spec, Prod.mk.sizeOf_spec]
        omega
      · have := ih h
        simp only [List.cons.sizeOf_spec]
        omega

/-- JavaScript `String#startsWith(p)`, modelled on the character list. -/
def strStartsWith (p s : String) : Bool := p.toList.isPrefixOf s.toList

/-- JavaScript `String#slice(n)`, modelled on the character list. -/
def strSlice (s : String) (n : Nat) : String := String.mk (s.toList.drop n)

/-- Model of `new Map(list)` over a decoded list: every element must be an entry
array; positions `0` and `1` are taken and missing positions are
`undefined` (conflated with null here).  A non-array element raises a
TypeError. -/
def toMapEntries : List JSVal → Except String (List (JSVal × JSVal))
  | [] => .ok []
  | .varr (k :: v :: _) :: rest => do
      let es ← toMapEntries rest
      pure ((k, v) :: es)
  | .varr [k] :: rest => do
      let es ← toMapEntries rest
      pure ((k, .vnull) :: es)
  | .varr [] :: rest => do
      let es ← toMapEntries rest
      pure ((.vnull, .vnull) :: es)
  | _ => .error "Iterator value is not an entry object"

mutual

/-- Model of `readValue` from `json.ts`.  `null` and primitives pass through;
arrays decode element-wise; an object without a `type` property (or with
a null one) decodes as a plain nested object only in compatibility mode;
`Map`/`Buffer`/`object` envelopes decode by tag; a `custom-<Name>` tag
requires `<Name>` to be registered (the fresh instance is modelled as
having no own properties before `Object.assign`) and fails otherwise for
every value of the flag; any other string tag decodes as a plain object
in compatibility mode and fails otherwise.  A non-string `type` raises a
TypeError (`startsWith` is not a function). -/
def readValue (reg : Registry) (compatMode : Bool) : JVal → Except String JSVal
  | .jnull => .ok .vnull
  | .jbool b => .ok (.vbool b)
  | .jnum q => .ok (.vnum q)
  | .jnan => .ok .vnan
  | .jinf => .ok .vinf
  | .jninf => .ok .vninf
  | .jstr s => .ok (.vstr s)
  | .jarr items => do
      let vs ← dejsonifyList reg compatMode items
      pure (.varr vs)
  | .jobj fields =>
      match lookupField fields "type" with
      | none =>
          if compatMode then do
            let fs ← dejsonifyFields reg compatMode fields
            pure (.vobj fs)
          else .error "JSON object has a null type"
      | some .jnull =>
          if compatMode then do
            let fs ← dejsonifyFields reg compatMode fields
            pure (.vobj fs)
          else .error "JSON object has a null type"
      | some (.jstr t) =>
          if t = "Map" then
            match hdata : lookupField fields "data" with
            | some d => do
                let dv ← dejsonifyJ reg compatMode d
                match dv with
                | .varr items => do
                    let es ← toMapEntries items
                    pure (.vmap es)
                | _ => .error "object is not iterable"
            | none => .error "TypeError: cannot convert undefined to object"
          else if t = "Buffer" then
            match lookupField fields "data" with
            | some (.jstr s) => .ok (.vbuf (base64Decode s))
            | _ => .error "TypeError: first argument must be a string"
          else if t = "object" then
            match hdata : lookupField fields "data" with
            | some d => dejsonifyJ reg compatMode d
            | none => .error "TypeError: cannot convert undefined to object"
          else if strStartsWith "custom-" t then
            match findClass reg (strSlice t 7) with
            | some _ =>
                match hdata : lookupField fields "data" with
                | some d => do
                    let dv ← dejsonifyJ reg compatMode d
                    match dv with
                    | .vobj fs => pure (.vcustom (strSlice t 7) fs)
                    | _ => .error "Object.assign payload is not an object"
                | none => .error "TypeError: cannot convert undefined to object"
            | none => .error ("Class for type '" ++ strSlice t 7 ++ "' was not registered")
          else if compatMode then do
            let fs ← dejsonifyFields reg compatMode fields
            pure (.vobj fs)
          else .error ("JSON object is of unknown type " ++ t)
      | some _ => .error "TypeError: val.type.startsWith is not a function"
termination_by j => sizeOf j
decreasing_by
  all_goals simp_wf
  all_goals try omega
  all_goals (have hlf := lookupField_sizeOf hdata; omega)

/-- Model of `dejsonify` as invoked on `val.data` payloads.  The TypeScript
signature restricts the argument to objects and arrays; `null` raises a
TypeError inside `Object.entries`; the remaining primitives lie outside
the typed domain (they never arise from `jsonify` output) and are
modelled as errors. -/
def dejsonifyJ (reg : Registry) (compatMode : Bool) : JVal → Except String JSVal
  | .jarr items => do
      let vs ← dejsonifyList reg compatMode items
      pure (.varr vs)
  | .jobj fields => do
      let fs ← dejsonifyFields reg compatMode fields
      pure (.vobj fs)
  | .jnull => .error "TypeError: cannot convert null to object"
  | _ => .error "dejsonify applied outside its typed domain"
termination_by j => sizeOf j

/-- Model of `dejsonify`, array branch: element-wise `readValue`. -/
def dejsonifyList (reg : Registry) (compatMode : Bool) :
    List JVal → Except String (List JSVal)
  | [] => .ok []
  | item :: rest => do
      let v ← readValue reg compatMode item
      let vs ← dejsonifyList reg compatMode rest
      pure (v :: vs)
termination_by l => sizeOf l

/-- Model of `dejsonify`, object branch: value-wise `readValue` over the entries. -/
def dejsonifyFields (reg : Registry) (compatMode : Bool) :
    List (String × JVal) → Except String (List (String × JSVal))
  | [] => .ok []
  | (key, value) :: rest => do
      let v ← readValue reg compatMode value
      let vs ← dejsonifyFields reg compatMode rest
      pure ((key, v) :: vs)
termination_by fs => sizeOf fs

end

/-! ## The lossless fragment of the codec -/

@[simp] theorem exceptPureEq {α : Type} (a : α) : (pure a : Except String α) = .ok a := rfl

@[simp] theorem exceptBindOk {α β : Type} (a : α) (f : α → Except String β) :
    ((Except.ok a : Except String α) >>= f) = f a := rfl

@[simp] theorem exceptBindErr {α β : Type} (e : String) (f : α → Except String β) :
    ((Except.error e : Except String α) >>= f) = .error e := rfl

theorem exceptBindEqOk {α β : Type} {x : Except String α} {f : α → Except String β} {b : β}
    (h : (x >>= f) = .ok b) : ∃ a, x = .ok a ∧ f a = .ok b := by
  cases x with
  | ok a => exact ⟨a, rfl, h⟩
  | error e => exact absurd h (by simp)

mutual

/-- The fragment of values whose tagged round-trip is lossless: only
serializable kinds, byte values below 256, and every custom instance
registered, with none of its class's ignored properties present. -/
def goodVal (reg : Registry) : JSVal → Bool
  | .vnull => true
  | .vbool _ => true
  | .vnum _ => true
  | .vnan => true
  | .vinf => true
  | .vninf => true
  | .vstr _ => true
  | .varr items => goodList reg items
  | .vobj fields => goodFields reg fields
  | .vmap entries => goodEntries reg entries
  | .vbuf bytes => bytes.all (fun b => decide (b < 256))
  | .vcustom cls fields =>
      match findClass reg cls with
      | some ignoredProps =>
          fields.all (fun kv => !(ignoredProps.contains kv.1)) && goodFields reg fields
      | none => false
  | .vbigint => false
  | .vfunc => false
  | .vsymbol => false
termination_by v => sizeOf v

def goodList (reg : Registry) : List JSVal → Bool
  | [] => true
  | item :: rest => goodVal reg item && goodList reg rest
termination_by l => sizeOf l

def goodFields (reg : Registry) : List (String × JSVal) → Bool
  | [] => true
  | (_, value) :: rest => goodVal reg value && goodFields reg rest
termination_by fs => sizeOf fs

def goodEntries (reg : Registry) : List (JSVal × JSVal) → Bool
  | [] => true
  | (k, v) :: rest => goodVal reg k && goodVal reg v && goodEntries reg rest
termination_by es => sizeOf es

end

theorem goodVal_isSerializable {reg : Registry} {v : JSVal} (h : goodVal reg v = true) :
    isSerializable v = true := by
  cases v <;> simp_all [goodVal, isSerializable]

/-- A custom tag built from a class name starts with the marker. -/
theorem strStartsWith_custom (cls : String) :
    strStartsWith "custom-" ("custom-" ++ cls) = true := by
  simp only [strStartsWith, String.toList]
  rw [String.data_append]
  simp [List.isPrefixOf_iff_prefix]

/-- Slicing the marker off a custom tag recovers the class name. -/
theorem strSlice_custom (cls : String) : strSlice ("custom-" ++ cls) 7 = cls := by
  simp only [strSlice, String.toList]
  rw [String.data_append]
  rw [List.drop_left' (by rfl)]

theorem custom_tag_ne_Map (cls : String) : ("custom-" ++ cls) ≠ "Map" := by
  intro h
  have h2 : ("custom-" ++ cls).data.length = ("Map" : String).data.length := by rw [h]
  rw [String.data_append, List.length_append] at h2
  simp at h2
  omega

theorem custom_tag_ne_Buffer (cls : String) : ("custom-" ++ cls) ≠ "Buffer" := by
  intro h
  have h2 : ("custom-" ++ cls).data.length = ("Buffer" : String).data.length := by rw [h]
  rw [String.data_append, List.length_append] at h2
  simp at h2
  omega

theorem custom_tag_ne_object (cls : String) : ("custom-" ++ cls) ≠ "object" := by
  intro h
  have h2 : ("custom-" ++ cls).data.length = ("object" : String).data.length := by rw [h]
  rw [String.data_append, List.length_append] at h2
  simp at h2
  omega

theorem readValue_object_env (reg : Registry) (compat : Bool) (d : List (String × JVal)) :
    readValue reg compat (.jobj [("data", .jobj d), ("type", .jstr "object")])
      = dejsonifyJ reg compat (.jobj d) := by
  rw [readValue]
  rw [show lookupField [("data", JVal.jobj d), ("type", JVal.jstr "object")] "type"
      = some (JVal.jstr "object") from rfl]
  simp only
  rw [if_pos trivial]
  rw [show lookupField [("data", JVal.jobj d), ("type", JVal.jstr "object")] "data"
      = some (JVal.jobj d) from rfl]
  simp

theorem readValue_buffer_env (reg : Registry) (compat : Bool) (s : String) :
    readValue reg compat (.jobj [("data", .jstr s), ("type", .jstr "Buffer")])
      = .ok (.vbuf (base64Decode s)) := by
  rw [readValue]
  rw [show lookupField [("data", JVal.jstr s), ("type", JVal.jstr "Buffer")] "type"
      = some (JVal.jstr "Buffer") from rfl]
  simp only
  rw [if_pos trivial]
  rw [show lookupField [("data", JVal.jstr s), ("type", JVal.jstr "Buffer")] "data"
      = some (JVal.jstr s) from rfl]
  simp

theorem readValue_map_env (reg : Registry) (compat : Bool) (d : List JVal) :
    readValue reg compat (.jobj [("data", .jarr d), ("type", .jstr "Map")])
      = (dejsonifyJ reg compat (.jarr d) >>= fun dv =>
          match dv with
          | .varr items => toMapEntries items >>= fun es => pure (.vmap es)
          | _ => .error "object is not iterable") := by
  rw [readValue]
  rw [show lookupField [("data", JVal.jarr d), ("type", JVal.jstr "Map")] "type"
      = some (JVal.jstr "Map") from rfl]
  simp only
  rw [if_pos trivial]
  rw [show lookupField [("data", JVal.jarr d), ("type", JVal.jstr "Map")] "data"
      = some (JVal.jarr d) from rfl]

theorem readValue_custom_env (reg : Registry) (compat : Bool) (cls : String)
    (ign : List String) (d : List (String × JVal)) (h : findClass reg cls = some ign) :
    readValue reg compat (.jobj [("data", .jobj d), ("type", .jstr ("custom-" ++ cls))])
      = (dejsonifyJ reg compat (.jobj d) >>= fun dv =>
          match dv with
          | .vobj fs => pure (.vcustom cls fs)
          | _ => .error "Object.assign payload is not an object") := by
  rw [readValue]
  rw [show lookupField [("data", JVal.jobj d), ("type", JVal.jstr ("custom-" ++ cls))] "type"
      = some (JVal.jstr ("custom-" ++ cls)) from rfl]
  simp only
  rw [if_neg (custom_tag_ne_Map cls), if_neg (custom_tag_ne_Buffer cls),
    if_neg (custom_tag_ne_object cls), if_pos (strStartsWith_custom cls)]
  rw [strSlice_custom, h]
  simp only
  rw [show lookupField [("data", JVal.jobj d), ("type", JVal.jstr ("custom-" ++ cls))] "data"
      = some (JVal.jobj d) from rfl]

theorem jsonifyFields_no_ignored (reg : Registry) (ign : List String) :
    ∀ fs : List (String × JSVal), (∀ kv ∈ fs, ign.contains kv.1 = false) →
      jsonifyFields reg ign fs = jsonifyFields reg [] fs := by
  intro fs
  induction fs with
  | nil =>
      intro _
      simp [jsonifyFields]
  | cons kv rest ih =>
      obtain ⟨key, value⟩ := kv
      intro h
      have hk : ign.contains key = false := h (key, value) (by simp)
      have hrest := ih (fun kv hkv => h kv (by simp [hkv]))
      by_cases hs : isSerializable value = true
      · simp only [jsonifyFields, hs, hk, if_true, if_false, Bool.false_eq_true,
          List.contains_nil, hrest]
      · simp only [Bool.not_eq_true] at hs
        simp only [jsonifyFields, hs, Bool.false_eq_true, if_false, hrest]

theorem codecRoundtripAux (reg : Registry) :
    ∀ n : Nat,
      (∀ v : JSVal, sizeOf v ≤ n → goodVal reg v = true →
        (writeValue reg v >>= readValue reg false) = Except.ok v) ∧
      (∀ l : List JSVal, sizeOf l ≤ n → goodList reg l = true →
        (jsonifyList reg l >>= dejsonifyList reg false) = Except.ok l) ∧
      (∀ fs : List (String × JSVal), sizeOf fs ≤ n → goodFields reg fs = true →
        (jsonifyFields reg [] fs >>= dejsonifyFields reg false) = Except.ok fs) ∧
      (∀ es : List (JSVal × JSVal), sizeOf es ≤ n → goodEntries reg es = true →
        (jsonifyEntries reg es >>= fun d => dejsonifyList reg false d >>= toMapEntries)
          = Except.ok es) := by
  intro n
  induction n using Nat.strong_induction_on with
  | _ n ih =>
  refine ⟨?_, ?_, ?_, ?_⟩
  · intro v hle hgood
    cases v with
    | vnull => simp [writeValue, readValue]
    | vbool b => simp [writeValue, readValue]
    | vnum q => simp [writeValue, readValue]
    | vnan => simp [writeValue, readValue]
    | vinf => simp [writeValue, readValue]
    | vninf => simp [writeValue, readValue]
    | vstr s => simp [writeValue, readValue]
    | varr items =>
        have hgood' : goodList reg items = true := by simpa [goodVal] using hgood
        have hlt : sizeOf items < n := by
          simp only [JSVal.varr.sizeOf_spec] at hle
          omega
        obtain ⟨d, hd, hback⟩ :=
          exceptBindEqOk ((ih (sizeOf items) hlt).2.1 items le_rfl hgood')
        simp only [writeValue]
        rw [hd]
        simp only [exceptBindOk, exceptPureEq, readValue]
        rw [hback]
        simp
    | vobj fields =>
        have hgood' : goodFields reg fields = true := by simpa [goodVal] using hgood
        have hlt : sizeOf fields < n := by
          simp only [JSVal.vobj.sizeOf_spec] at hle
          omega
        obtain ⟨d, hd, hback⟩ :=
          exceptBindEqOk ((ih (sizeOf fields) hlt).2.2.1 fields le_rfl hgood')
        simp only [writeValue]
        rw [hd]
        simp only [exceptBindOk, exceptPureEq]
        rw [readValue_object_env]
        simp only [dejsonifyJ]
        rw [hback]
        simp
    | vmap entries =>
        have hgood' : goodEntries reg entries = true := by simpa [goodVal] using hgood
        have hlt : sizeOf entries < n := by
          simp only [JSVal.vmap.sizeOf_spec] at hle
          omega
        obtain ⟨d, hd, hrest⟩ :=
          exceptBindEqOk ((ih (sizeOf entries) hlt).2.2.2 entries le_rfl hgood')
        obtain ⟨items, hitems, hents⟩ := exceptBindEqOk hrest
        simp only [writeValue]
        rw [hd]
        simp only [exceptBindOk, exceptPureEq]
        rw [readValue_map_env]
        simp only [dejsonifyJ]
        rw [hitems]
        simp only [exceptBindOk, exceptPureEq]
        rw [hents]
        simp
    | vbuf bytes =>
        have hb : ∀ x ∈ bytes, x < 256 := by
          simpa [goodVal, List.all_eq_true] using hgood
        simp only [writeValue, exceptBindOk]
        rw [readValue_buffer_env, base64_roundtrip bytes hb]
    | vcustom cls fields =>
        cases hfc : findClass reg cls with
        | none => simp [goodVal, hfc] at hgood
        | some ign =>
            have hgood2 : fields.all (fun kv => !(ign.contains kv.1)) = true
                ∧ goodFields reg fields = true := by
              simpa [goodVal, hfc, Bool.and_eq_true] using hgood
            have hni : ∀ kv ∈ fields, ign.contains kv.1 = false := by
              have := hgood2.1
              simp only [List.all_eq_true, Bool.not_eq_eq_eq_not, Bool.not_true] at this
              exact this
            have hlt : sizeOf fields < n := by
              simp only [JSVal.vcustom.sizeOf_spec] at hle
              omega
            obtain ⟨d, hd, hback⟩ :=
              exceptBindEqOk ((ih (sizeOf fields) hlt).2.2.1 fields le_rfl hgood2.2)
            simp only [writeValue, hfc]
            rw [jsonifyFields_no_ignored reg ign fields hni, hd]
            simp only [exceptBindOk, exceptPureEq]
            rw [readValue_custom_env reg false cls ign d hfc]
            simp only [dejsonifyJ]
            rw [hback]
            simp
    | vbigint => simp [goodVal] at hgood
    | vfunc => simp [goodVal] at hgood
    | vsymbol => simp [goodVal] at hgood
  · intro l hle hgood
    cases l with
    | nil => simp [jsonifyList, dejsonifyList]
    | cons item rest =>
        have h1 : goodVal reg item = true ∧ goodList reg rest = true := by
          simpa [goodList, Bool.and_eq_true] using hgood
        have hlt1 : sizeOf item < n := by
          simp only [List.cons.sizeOf_spec] at hle
          omega
        have hlt2 : sizeOf rest < n := by
          simp only [List.cons.sizeOf_spec] at hle
          omega
        obtain ⟨jv, hjv, hjback⟩ :=
          exceptBindEqOk ((ih (sizeOf item) hlt1).1 item le_rfl h1.1)
        obtain ⟨jrest, hjrest, hrback⟩ :=
          exceptBindEqOk ((ih (sizeOf rest) hlt2).2.1 rest le_rfl h1.2)
        simp only [jsonifyList, goodVal_isSerializable h1.1, if_true]
        rw [hjv, hjrest]
        simp only [exceptBindOk, exceptPureEq, dejsonifyList]
        rw [hjback, hrback]
        simp
  · intro fs hle hgood
    cases fs with
    | nil => simp [jsonifyFields, dejsonifyFields]
    | cons kv rest =>
        obtain ⟨key, value⟩ := kv
        have h1 : goodVal reg value = true ∧ goodFields reg rest = true := by
          simpa [goodFields, Bool.and_eq_true] using hgood
        have hlt1 : sizeOf value < n := by
          simp only [List.cons.sizeOf_spec, Prod.mk.sizeOf_spec] at hle
          omega
        have hlt2 : sizeOf rest < n := by
          simp only [List.cons.sizeOf_spec] at hle
          omega
        obtain ⟨jv, hjv, hjback⟩ :=
          exceptBindEqOk ((ih (sizeOf value) hlt1).1 value le_rfl h1.1)
        obtain ⟨jrest, hjrest, hrback⟩ :=
          exceptBindEqOk ((ih (sizeOf rest) hlt2).2.2.1 rest le_rfl h1.2)
        simp only [jsonifyFields, goodVal_isSerializable h1.1, if_true,
          List.contains_nil, Bool.false_eq_true, if_false]
        rw [hjv, hjrest]
        simp only [exceptBindOk, exceptPureEq, dejsonifyFields]
        rw [hjback, hrback]
        simp
  · intro es hle hgood
    cases es with
    | nil => simp [jsonifyEntries, dejsonifyList, toMapEntries]
    | cons kv rest =>
        obtain ⟨k, v⟩ := kv
        have h1 : goodVal reg k = true ∧ goodVal reg v = true
            ∧ goodEntries reg rest = true := by
          simpa [goodEntries, Bool.and_eq_true, and_assoc] using hgood
        have hltk : sizeOf k < n := by
          simp only [List.cons.sizeOf_spec, Prod.mk.sizeOf_spec] at hle
          omega
        have hltv : sizeOf v < n := by
          simp only [List.cons.sizeOf_spec, Prod.mk.sizeOf_spec] at hle
          omega
        have hltr : sizeOf rest < n := by
          simp only [List.cons.sizeOf_spec] at hle
          omega
        obtain ⟨jk, hjk, hkback⟩ :=
          exceptBindEqOk ((ih (sizeOf k) hltk).1 k le_rfl h1.1)
        obtain ⟨jv, hjv, hvback⟩ :=
          exceptBindEqOk ((ih (sizeOf v) hltv).1 v le_rfl h1.2.1)
        obtain ⟨jrest, hjrest, hcomp⟩ :=
          exceptBindEqOk ((ih (sizeOf rest) hltr).2.2.2 rest le_rfl h1.2.2)
        obtain ⟨ritems, hritems, hrents⟩ := exceptBindEqOk hcomp
        simp only [jsonifyEntries, jsonifyPair, goodVal_isSerializable h1.1,
          goodVal_isSerializable h1.2.1, if_true]
        rw [hjk, hjv, hjrest]
        simp only [exceptBindOk, exceptPureEq, List.singleton_append, dejsonifyList,
          readValue]
        rw [hkback, hvback, hritems]
        simp only [exceptBindOk, exceptPureEq, toMapEntries]
        rw [hrents]
        simp

theorem jsonifyFields_filter_ignored (reg : Registry) (ign : List String) :
    ∀ fs : List (String × JSVal),
      jsonifyFields reg ign fs
        = jsonifyFields reg [] (fs.filter (fun kv => !(ign.contains kv.1))) := by
  intro fs
  induction fs with
  | nil => simp [jsonifyFields]
  | cons kv rest ih =>
      obtain ⟨key, value⟩ := kv
      by_cases hk : ign.contains key = true
      · have hk2 : key ∈ ign := List.mem_of_elem_eq_true hk
        have hfilter : ((key, value) :: rest).filter (fun kv => !(ign.contains kv.1))
            = rest.filter (fun kv => !(ign.contains kv.1)) := by
          simp [List.filter_cons, hk2]
        rw [hfilter, ← ih]
        by_cases hs : isSerializable value = true
        · simp only [jsonifyFields, hs, hk, if_true]
        · simp only [Bool.not_eq_true] at hs
          simp only [jsonifyFields, hs, Bool.false_eq_true, if_false]
      · simp only [Bool.not_eq_true] at hk
        have hk2 : key ∉ ign := by
          intro hmem
          rw [show ign.contains key = List.elem key ign from rfl,
            List.elem_eq_true_of_mem hmem] at hk
          cases hk
        have hfilter : ((key, value) :: rest).filter (fun kv => !(ign.contains kv.1))
            = (key, value) :: rest.filter (fun kv => !(ign.contains kv.1)) := by
          simp [List.filter_cons, hk2]
        rw [hfilter]
        by_cases hs : isSerializable value = true
        · simp only [jsonifyFields, hs, hk, if_true, Bool.false_eq_true, if_false,
            List.contains_nil, ih]
        · simp only [Bool.not_eq_true] at hs
          simp only [jsonifyFields, hs, Bool.false_eq_true, if_false, ih]

/-- C3: decoding the encoded form is the identity on the lossless fragment
(plain objects, arrays of mixed primitives, maps with arbitrary keys, byte
buffers, registered custom instances), and a registered custom instance
with an ignored property round-trips to the same instance with every
ignored property absent. -/
theorem claim_C3 (reg : Registry) :
    (∀ v : JSVal, goodVal reg v = true →
       (writeValue reg v >>= readValue reg false) = Except.ok v) ∧
    (∀ (cls : String) (fs : List (String × JSVal)) (ign : List String),
       findClass reg cls = some ign →
       goodFields reg (fs.filter (fun kv => !(ign.contains kv.1))) = true →
       (writeValue reg (.vcustom cls fs) >>= readValue reg false)
         = Except.ok (.vcustom cls (fs.filter (fun kv => !(ign.contains kv.1)))) ∧
       ∀ kv ∈ fs.filter (fun kv => !(ign.contains kv.1)), ign.contains kv.1 = false) := by
  constructor
  · intro v h
    exact ((codecRoundtripAux reg (sizeOf v)).1 v le_rfl h)
  · intro cls fs ign hfc hgf
    constructor
    · obtain ⟨d, hd, hback⟩ :=
        exceptBindEqOk ((codecRoundtripAux reg
          (sizeOf (fs.filter (fun kv => !(ign.contains kv.1))))).2.2.1 _ le_rfl hgf)
      simp only [writeValue, hfc]
      rw [jsonifyFields_filter_ignored reg ign fs, hd]
      simp only [exceptBindOk, exceptPureEq]
      rw [readValue_custom_env reg false cls ign d hfc]
      simp only [dejsonifyJ]
      rw [hback]
      simp
    · intro kv hkv
      have := (List.mem_filter.mp hkv).2
      simpa using this

theorem claim_C3_witness :
    (writeValue [("Pt", ["tmp"])] (.vobj [("a", .vnum 1), ("b", .vstr "x")])
        >>= readValue [("Pt", ["tmp"])] false)
      = Except.ok (.vobj [("a", .vnum 1), ("b", .vstr "x")]) ∧
    (writeValue [("Pt", ["tmp"])] (.varr [.vnum 1, .vstr "s", .vbool true, .vnull])
        >>= readValue [("Pt", ["tmp"])] false)
      = Except.ok (.varr [.vnum 1, .vstr "s", .vbool true, .vnull]) ∧
    (writeValue [("Pt", ["tmp"])] (.vmap [(.vnum 1, .vstr "one"), (.vbool true, .vnum 2)])
        >>= readValue [("Pt", ["tmp"])] false)
      = Except.ok (.vmap [(.vnum 1, .vstr "one"), (.vbool true, .vnum 2)]) ∧
    (writeValue [("Pt", ["tmp"])] (.vbuf [0, 1, 250, 255])
        >>= readValue [("Pt", ["tmp"])] false)
      = Except.ok (.vbuf [0, 1, 250, 255]) ∧
    (writeValue [("Pt", ["tmp"])] (.vcustom "Pt" [("x", .vnum 3), ("tmp", .vstr "drop")])
        >>= readValue [("Pt", ["tmp"])] false)
      = Except.ok (.vcustom "Pt" [("x", .vnum 3)]) := by
  refine ⟨?_, ?_, ?_, ?_, ?_⟩
  · exact (claim_C3 _).1 _ (by simp [goodVal, goodFields])
  · exact (claim_C3 _).1 _ (by simp [goodVal, goodList])
  · exact (claim_C3 _).1 _ (by simp [goodVal, goodEntries])
  · exact (claim_C3 _).1 _ (by simp [goodVal])
  · exact ((claim_C3 [("Pt", ["tmp"])]).2 "Pt" [("x", .vnum 3), ("tmp", .vstr "drop")]
      ["tmp"] (by simp [findClass]) (by
        show goodFields _ [("x", JSVal.vnum 3)] = true
        simp [goodFields, goodVal])).1

/-- C4 (counterexample): with the compatibility flag on, a tagged object
whose tag is the unknown, non-custom string "weird" does NOT fail —
`readValue` decodes it as a plain nested object (the whole object,
`type` property included), contradicting the claim that every unknown
non-builtin tag is a deserialization failure. -/
theorem claim_C4_counterexample :
    readValue [] true (.jobj [("type", .jstr "weird"), ("x", .jnum 1)])
      = Except.ok (.vobj [("type", .vstr "weird"), ("x", .vnum 1)]) := by
  rw [readValue]
  rw [show lookupField [("type", JVal.jstr "weird"), ("x", JVal.jnum 1)] "type"
      = some (JVal.jstr "weird") from rfl]
  simp only
  rw [show strStartsWith "custom-" "weird" = false from rfl]
  simp [dejsonifyFields, readValue]

/-- C4 (amended): a tagged object with a `custom-<Name>` tag whose name is
not registered is a hard deserialization failure for every value of the
compatibility flag; and with the compatibility flag off, every tagged
object whose string tag is none of the builtin tags (and, if a custom
tag, is unregistered) fails.  With the flag on, an unknown non-custom
tag instead decodes as a plain nested object (see the counterexample). -/
theorem claim_C4 :
    (∀ (reg : Registry) (compat : Bool) (fields : List (String × JVal)) (t : String),
       lookupField fields "type" = some (.jstr t) →
       t ≠ "Map" → t ≠ "Buffer" → t ≠ "object" →
       strStartsWith "custom-" t = true →
       findClass reg (strSlice t 7) = none →
       ∃ e, readValue reg compat (.jobj fields) = .error e) ∧
    (∀ (reg : Registry) (fields : List (String × JVal)) (t : String),
       lookupField fields "type" = some (.jstr t) →
       t ≠ "Map" → t ≠ "Buffer" → t ≠ "object" →
       (strStartsWith "custom-" t = true → findClass reg (strSlice t 7) = none) →
       ∃ e, readValue reg false (.jobj fields) = .error e) := by
  constructor
  · intro reg compat fields t hl h1 h2 h3 hpre hnone
    rw [readValue, hl]
    simp only
    rw [if_neg h1, if_neg h2, if_neg h3, if_pos hpre, hnone]
    exact ⟨_, rfl⟩
  · intro reg fields t hl h1 h2 h3 hcust
    rw [readValue, hl]
    simp only
    rw [if_neg h1, if_neg h2, if_neg h3]
    by_cases hpre : strStartsWith "custom-" t = true
    · rw [if_pos hpre, hcust hpre]
      exact ⟨_, rfl⟩
    · rw [if_neg hpre]
      simp

theorem claim_C4_witness :
    (∃ e, readValue [] true (.jobj [("type", .jstr "custom-Nope")]) = .error e) ∧
    (∃ e, readValue [] false (.jobj [("type", .jstr "weird")]) = .error e) := by
  constructor
  · exact claim_C4.1 [] true [("type", .jstr "custom-Nope")] "custom-Nope" rfl
      (by decide) (by decide) (by decide) (by decide) rfl
  · exact claim_C4.2 [] [("type", .jstr "weird")] "weird" rfl
      (by decide) (by decide) (by decide) (fun h => by exact absurd h (by decide))

/-! ## `builder.ts`: table model, DDL and query construction -/

/-- Model of `TableColumn` from the driver source.  `defaultValue: any` is a raw
JavaScript value (`vnull` for an absent/null default). -/
structure TableColumn where
  type : ColumnType
  name : String
  mappedTo : Option String := none
  nullable : Bool := false
  defaultValue : JSVal := .vnull
  isPrimaryKey : Bool := false
  autoIncrement : Bool := false

/-- Model of `Model` from the driver source (`new Model(tableName, columns, database)`). -/
structure Model where
  tableName : String
  columns : List TableColumn
  database : String

/-- Model of `getSqlType` from `builder.ts`.  The `default: throw` arm is
unreachable: `ColumnType` is a closed union. -/
def getSqlType : ColumnType → String
  | .boolean => "INTEGER"
  | .integer => "INTEGER"
  | .json => "TEXT"
  | .string => "TEXT"
  | .blob => "BLOB"
  | .number => "REAL"

/-- JavaScript truthiness, as used by `value ? 1 : 0` and the
`if (query.limit)` guards. -/
def jsTruthy : JSVal → Bool
  | .vnull => false
  | .vbool b => b
  | .vnum q => !(q == 0)
  | .vnan => false
  | .vstr s => !(s == "")
  | _ => true

/-- Model of `value == null` (loose equality): true exactly for null/undefined. -/
def isNullish : JSVal → Bool
  | .vnull => true
  | _ => false

/-- JavaScript number-to-string coercion.  Integral doubles print their
decimal digits; the decimal rendering of non-integral doubles is
approximated by the rational rendering (no claim inspects it). -/
def jsNumToString (q : ℚ) : String :=
  if q.den = 1 then toString q.num else toString q

mutual

/-- JavaScript string coercion `String(v)`, as performed by template
interpolation in `builder.ts`.  Objects render as their default
`[object ...]` tags; arrays join their elements with commas (null and
undefined elements render empty).  The value of a `bigint` and the source
text of a function are not carried by the model, and a `symbol` (whose
coercion throws in JavaScript) renders empty; none of these corners is
reachable from any claim. -/
def jsToString : JSVal → String
  | .vnull => "null"
  | .vbool b => if b then "true" else "false"
  | .vnum q => jsNumToString q
  | .vnan => "NaN"
  | .vinf => "Infinity"
  | .vninf => "-Infinity"
  | .vstr s => s
  | .varr items => jsArrToString items
  | .vobj _ => "[object Object]"
  | .vmap _ => "[object Map]"
  | .vbuf bytes => String.intercalate "," (bytes.map (fun b => toString b))
  | .vcustom _ _ => "[object Object]"
  | .vbigint => ""
  | .vfunc => ""
  | .vsymbol => ""
termination_by v => sizeOf v

/-- Model of `Array.prototype.join(',')`, the array part of string coercion;
null/undefined elements render as the empty string. -/
def jsArrToString : List JSVal → String
  | [] => ""
  | [.vnull] => ""
  | [x] => jsToString x
  | .vnull :: rest => "," ++ jsArrToString rest
  | x :: rest => jsToString x ++ "," ++ jsArrToString rest
termination_by l => sizeOf l

end

/-- Model of `JSON.stringify` escaping for one character.  Control characters
other than the common escapes are left unescaped by this model; no claim
inspects stringified text. -/
def jsonEscapeChar (c : Char) : String :=
  if c = '"' then "\\\""
  else if c = '\\' then "\\\\"
  else if c = '\n' then "\\n"
  else if c = '\r' then "\\r"
  else if c = '\t' then "\\t"
  else String.mk [c]

def jsonQuote (s : String) : String :=
  "\"" ++ String.join (s.toList.map jsonEscapeChar) ++ "\""

mutual

/-- Model of `JSON.stringify` on a JSON-safe tree (non-finite numbers render as
`null`, as in JavaScript). -/
def jsonStringify : JVal → String
  | .jnull => "null"
  | .jbool b => if b then "true" else "false"
  | .jnum q => jsNumToString q
  | .jnan => "null"
  | .jinf => "null"
  | .jninf => "null"
  | .jstr s => jsonQuote s
  | .jarr items => "[" ++ jsonStringifyList items ++ "]"
  | .jobj fields => "\x7b" ++ jsonStringifyFields fields ++ "\x7d"
termination_by j => sizeOf j

def jsonStringifyList : List JVal → String
  | [] => ""
  | [x] => jsonStringify x
  | x :: rest => jsonStringify x ++ "," ++ jsonStringifyList rest
termination_by l => sizeOf l

def jsonStringifyFields : List (String × JVal) → String
  | [] => ""
  | [(k, v)] => jsonQuote k ++ ":" ++ jsonStringify v
  | (k, v) :: rest => jsonQuote k ++ ":" ++ jsonStringify v ++ "," ++ jsonStringifyFields rest
termination_by fs => sizeOf fs

end

/-- Model of `jsonify` as called on an arbitrary top-level value (its TypeScript
signature promises an object or array, but `defaultValue`/`serialize`
pass `any`).  Non-array non-objects go through `Object.entries`
semantics: null throws, a string enumerates its characters, a
`Uint8Array` its indices, and every other primitive has no entries. -/
def jsonifyTop (reg : Registry) : JSVal → Except String JVal
  | .varr items => (jsonifyList reg items).map .jarr
  | .vobj fields => (jsonifyFields reg [] fields).map .jobj
  | .vcustom _ fields => (jsonifyFields reg [] fields).map .jobj
  | .vmap _ => .ok (.jobj [])
  | .vbuf bytes =>
      .ok (.jobj (bytes.enum.map (fun p => (toString p.1, .jnum (p.2 : ℚ)))))
  | .vstr s =>
      .ok (.jobj (s.toList.enum.map (fun p => (toString p.1, .jstr (String.mk [p.2])))))
  | .vnull => .error "TypeError: cannot convert null to object"
  | _ => .ok (.jobj [])

/-- Model of `getDefaultValue` from `builder.ts`, composed with the string
coercion performed when the result is interpolated after `DEFAULT `.
The `default: throw` arm is unreachable over the closed union. -/
def getDefaultValue (reg : Registry) : ColumnType → JSVal → Except String String
  | .boolean, value => .ok (if jsTruthy value then "1" else "0")
  | .number, value => .ok (jsToString value)
  | .integer, value => .ok (jsToString value)
  | .json, value => (jsonifyTop reg value).map (fun j => "'" ++ jsonStringify j ++ "'")
  | .string, value => .ok ("'" ++ jsToString value ++ "'")
  | .blob, value => .ok (jsToString value)

/-- Model of `buildColumnQuery` from `builder.ts`. -/
def buildColumnQuery (reg : Registry) (column : TableColumn) : Except String String :=
  if column.autoIncrement = true ∧ column.type ≠ ColumnType.integer then
    .error "Auto increment cannot be used on non integer column."
  else do
    let defPart ←
      if isNullish column.defaultValue = true ∧ column.autoIncrement = false then
        pure ""
      else
        Except.map (fun s => "DEFAULT " ++ s)
          (getDefaultValue reg column.type column.defaultValue)
    pure ("\"" ++ column.name ++ "\" " ++ getSqlType column.type ++ " "
      ++ (if column.nullable then "" else "NOT NULL") ++ " " ++ defPart ++ " "
      ++ (if column.isPrimaryKey then "PRIMARY KEY" else "") ++ " "
      ++ (if column.autoIncrement then "AUTOINCREMENT" else ""))

/-- Model of `buildAlterQuery` from `builder.ts`: refuse on differing table names,
refuse on differing primary-key column names, otherwise one
`ALTER TABLE ... ADD COLUMN` per declared column with no physical or
logical match among the existing columns. -/
def buildAlterQuery (reg : Registry) (existingModel actualModel : Model) :
    Except String (List String) :=
  if existingModel.tableName ≠ actualModel.tableName then
    .error ("[internal] table names are different (" ++ existingModel.tableName
      ++ " != " ++ actualModel.tableName ++ ")")
  else if ((existingModel.columns.find? (fun c => c.isPrimaryKey)).map (fun c => c.name))
      ≠ ((actualModel.columns.find? (fun c => c.isPrimaryKey)).map (fun c => c.name)) then
    .error (existingModel.tableName
      ++ ": Cannot add a column automatically, a primary key column already exists.")
  else
    (actualModel.columns.filter (fun col =>
        (existingModel.columns.find?
          (fun c => c.name == col.name || some c.name == col.mappedTo)).isNone)).mapM
      (fun col => (buildColumnQuery reg col).map (fun q =>
        "ALTER TABLE " ++ actualModel.database ++ ".'" ++ actualModel.tableName
          ++ "' ADD COLUMN " ++ q))

/-- One introspection row (`PRAGMA table_info` shape) as consumed by
`buildModelFromData`. -/
structure IntroCol where
  name : String
  dflt_value : JSVal := .vnull
  notnull : Int := 0
  pk : Int := 0

/-- Model of `buildModelFromData` from `builder.ts`: rebuild a model from
introspection rows, matching each row back to a declared column by
logical or physical name and skipping unmatched rows. -/
def buildModelFromData (ogModel : Model) (data : List IntroCol) : Model :=
  { tableName := ogModel.tableName
    database := ogModel.database
    columns := data.filterMap (fun datum =>
      (ogModel.columns.find?
          (fun t => t.name == datum.name || t.mappedTo == some datum.name)).map
        (fun ogCol =>
          { defaultValue := datum.dflt_value
            name := datum.name
            nullable := decide (datum.notnull = (0 : Int))
            type := ogCol.type
            isPrimaryKey := decide (datum.pk = (1 : Int))
            mappedTo := ogCol.mappedTo
            autoIncrement := ogCol.autoIncrement })) }

/-- A built statement: SQL text plus positional parameters. -/
structure BuiltQuery where
  query : String
  params : List JSVal

/-- The inner `where` descriptor: a caller-supplied SQL fragment with
optional positional values (`values?: any[]`). -/
structure WherePart where
  clause : String
  values : Option (List JSVal) := none

/-- The `order` descriptor (`by` is a Lean keyword, hence `by'`). -/
structure OrderPart where
  by' : String
  desc : Option Bool := none

/-- Model of `SelectQuery` (also `DeleteQuery`): optional where/order/limit/offset.
`where` is a Lean keyword, hence `whereQ`.  `limit`/`offset` are
JavaScript numbers, modelled as rationals. -/
structure SelectQuery where
  whereQ : Option WherePart := none
  order : Option OrderPart := none
  limit : Option ℚ := none
  offset : Option ℚ := none

/-- Model of `AggregateSelectQuery`: `select.clause` plus the filter parts and
optional group/having. -/
structure AggregateSelectQuery where
  select : String
  whereQ : Option WherePart := none
  group : Option (List String) := none
  having : Option WherePart := none
  order : Option OrderPart := none
  limit : Option ℚ := none
  offset : Option ℚ := none

/-- The rendered `ORDER BY` fragment (`desc ? ' DESC' : ''`). -/
def orderFragment (o : OrderPart) : String :=
  "ORDER BY " ++ o.by' ++ (if o.desc = some true then " DESC" else "")

/-- Model of `if (query.limit)`-style truthiness for an optional number: present
and non-zero. -/
def numPresent (l : Option ℚ) : Bool :=
  match l with
  | some q => !(q == 0)
  | none => false

/-- Model of `buildBaseFilterQuery` from `builder.ts`: the shared
`[WHERE] [ORDER BY] [LIMIT] [OFFSET]` tail.  Note that the source guards
`limit`/`offset` with JavaScript truthiness, so a supplied zero is
dropped. -/
def buildBaseFilterQuery (query : SelectQuery) : BuiltQuery :=
  let str : List String :=
    (match query.whereQ with | some w => ["WHERE " ++ w.clause] | none => [])
    ++ (match query.order with | some o => [orderFragment o] | none => [])
    ++ (match query.limit with
        | some l => if l ≠ 0 then ["LIMIT " ++ jsNumToString l] else []
        | none => [])
    ++ (match query.offset with
        | some l => if l ≠ 0 then ["OFFSET " ++ jsNumToString l] else []
        | none => [])
  { query := String.intercalate " " str
    params := (query.whereQ.map (fun w => w.values.getD [])).getD [] }

/-- Model of `buildSelectQuery` from `builder.ts`. -/
def buildSelectQuery (query : SelectQuery) (model : Model) : BuiltQuery :=
  let base := buildBaseFilterQuery query
  { base with
    query := "SELECT * FROM " ++ model.database ++ ".'" ++ model.tableName ++ "' "
      ++ base.query }

/-- Model of `buildDeleteQuery` from `builder.ts`. -/
def buildDeleteQuery (query : SelectQuery) (model : Model) : BuiltQuery :=
  let base := buildBaseFilterQuery query
  { base with
    query := "DELETE FROM " ++ model.database ++ ".'" ++ model.tableName ++ "' "
      ++ base.query }

/-- Column lookup by logical or physical name, as in
`model.columns.find((c) => c.name === col || c.mappedTo === col)`. -/
def findColumn (model : Model) (col : String) : Option TableColumn :=
  model.columns.find? (fun c => c.name == col || c.mappedTo == some col)

/-- The accumulation loop of `buildInsertQuery` over `Object.entries(data)`
(entry order preserved).  The source casts the column lookup with
`as NonNullable`, so a key matching no column crashes with a TypeError
when `.isPrimaryKey` is read — modelled as an error. -/
def insertLoop (model : Model) : List (String × JSVal) →
    Except String (List String × List JSVal)
  | [] => .ok ([], [])
  | (col, value) :: rest =>
      match findColumn model col with
      | none => .error "TypeError: cannot read properties of undefined"
      | some modelCol => do
          let r ← insertLoop model rest
          if modelCol.isPrimaryKey && modelCol.autoIncrement then pure r
          else pure (col :: r.1, value :: r.2)

/-- Model of `buildInsertQuery` from `builder.ts`: an autoincrement primary-key
column is skipped; the table name carries no database qualifier. -/
def buildInsertQuery (model : Model) (data : List (String × JSVal)) :
    Except String BuiltQuery :=
  (insertLoop model data).map (fun cp =>
    { query := "INSERT INTO '" ++ model.tableName ++ "' ("
        ++ String.intercalate ", " cp.1 ++ ") VALUES ("
        ++ String.intercalate ", " (cp.1.map (fun _ => "?")) ++ ")"
      params := cp.2 })

/-- The accumulation loop of `buildUpdateQuery`.  The source iterates
forward, overwriting `primaryCol`/`primaryVal` on every primary-key
match, so the LAST matching entry wins; this front recursion therefore
prefers the result of the tail. -/
def updateLoop (model : Model) : List (String × JSVal) →
    Except String (List String × List JSVal × Option String × Option JSVal)
  | [] => .ok ([], [], none, none)
  | (col, value) :: rest =>
      match findColumn model col with
      | none => .error "TypeError: cannot read properties of undefined"
      | some modelCol => do
          let r ← updateLoop model rest
          if modelCol.isPrimaryKey then
            match r.2.2.1 with
            | some _ => pure r
            | none => pure (r.1, r.2.1, some (modelCol.mappedTo.getD modelCol.name),
                some value)
          else
            pure (col :: r.1, value :: r.2.1, r.2.2.1, r.2.2.2)

/-- Model of `buildUpdateQuery` from `builder.ts`: supplied non-key columns go to
`SET`, the primary key (physical name when mapped) is the sole WHERE
predicate, parameters are the non-key values then the key value.  When no
entry matches a primary-key column, `undefined` is interpolated into the
WHERE text and pushed (null-conflated) as the final parameter. -/
def buildUpdateQuery (model : Model) (data : List (String × JSVal)) :
    Except String BuiltQuery :=
  (updateLoop model data).map (fun r =>
    { query := "UPDATE '" ++ model.tableName ++ "' SET "
        ++ String.intercalate ", " (r.1.map (fun c => c ++ " = ?"))
        ++ " WHERE " ++ (r.2.2.1.getD "undefined") ++ " = ?"
      params := r.2.1 ++ [r.2.2.2.getD .vnull] })

/-- Model of `buildCountWhereQuery` from `builder.ts` (the argument is the inner
`where` descriptor of the `WhereClause` wrapper). -/
def buildCountWhereQuery (query : WherePart) (model : Model) : BuiltQuery :=
  { query := "SELECT COUNT(*) FROM " ++ model.database ++ ".'" ++ model.tableName
      ++ "' WHERE " ++ query.clause
    params := query.values.getD [] }

/-- Model of `buildAggregateQuery` from `builder.ts`: clause order
SELECT/FROM/WHERE/GROUP BY/HAVING/ORDER BY/LIMIT/OFFSET; parameters are
the where values then the having values. -/
def buildAggregateQuery (query : AggregateSelectQuery) (model : Model) : BuiltQuery :=
  let str : List String :=
    ["SELECT " ++ query.select ++ " FROM " ++ model.database ++ ".'"
      ++ model.tableName ++ "'"]
    ++ (match query.whereQ with | some w => ["WHERE " ++ w.clause] | none => [])
    ++ (match query.group with
        | some g => ["GROUP BY " ++ String.intercalate ", " g]
        | none => [])
    ++ (match query.having with | some h => ["HAVING " ++ h.clause] | none => [])
    ++ (match query.order with | some o => [orderFragment o] | none => [])
    ++ (match query.limit with
        | some l => if l ≠ 0 then ["LIMIT " ++ jsNumToString l] else []
        | none => [])
    ++ (match query.offset with
        | some l => if l ≠ 0 then ["OFFSET " ++ jsNumToString l] else []
        | none => [])
  { query := String.intercalate " " str
    params := (match query.whereQ with | some w => w.values.getD [] | none => [])
      ++ (match query.having with | some h => h.values.getD [] | none => []) }

/-- JavaScript `typeof` (note `typeof null === 'object'`). -/
def jsTypeof : JSVal → String
  | .vnull => "object"
  | .vbool _ => "boolean"
  | .vnum _ => "number"
  | .vnan => "number"
  | .vinf => "number"
  | .vninf => "number"
  | .vstr _ => "string"
  | .varr _ => "object"
  | .vobj _ => "object"
  | .vmap _ => "object"
  | .vbuf _ => "object"
  | .vcustom _ _ => "object"
  | .vbigint => "bigint"
  | .vfunc => "function"
  | .vsymbol => "symbol"

/-- Model of `Number.isFinite`: finite numbers only (no coercion). -/
def jsIsFiniteNum : JSVal → Bool
  | .vnum _ => true
  | _ => false

def maxSafeInteger : Nat := 2 ^ 53 - 1

/-- Model of `Number.isSafeInteger`: an integral double of magnitude at most
`2^53 - 1`. -/
def jsIsSafeInteger : JSVal → Bool
  | .vnum q => q.den == 1 && decide (q.num.natAbs ≤ maxSafeInteger)
  | _ => false

/-- Model of `Number.isInteger`: an integral double (no magnitude bound). -/
def jsIsInteger : JSVal → Bool
  | .vnum q => q.den == 1
  | _ => false

/-- Strict equality `v === q` against a number literal. -/
def isStrictNum (v : JSVal) (q : ℚ) : Bool :=
  match v with
  | .vnum p => p == q
  | _ => false

/-- Model of `instanceof Array`. -/
def isJsArray : JSVal → Bool
  | .varr _ => true
  | _ => false

/-- Model of `instanceof Uint8Array` (a `Buffer` is a `Uint8Array` subclass). -/
def isUint8Array : JSVal → Bool
  | .vbuf _ => true
  | _ => false

/-- Model of `isProvidedTypeValid` from `builder.ts`. -/
def isProvidedTypeValid (provType : JSVal) (col : TableColumn) : Bool :=
  if col.nullable && isNullish provType then true
  else if jsTypeof provType == "number" && !(jsIsFiniteNum provType) then false
  else match col.type with
    | .string => jsTypeof provType == "string"
    | .boolean => jsTypeof provType == "boolean" || isStrictNum provType 0
        || isStrictNum provType 1
    | .integer => jsTypeof provType == "number" && jsIsSafeInteger provType
    | .number => jsTypeof provType == "number"
    | .json => jsTypeof provType == "object" || isJsArray provType
    | .blob => isUint8Array provType

/-! ## `model-reader.ts`: the model snapshot store -/

/-- Model of `read` from `model-reader.ts`, modelled from the JSON parse outcome
onward: `none` stands for a file that is absent or unparseable (the
`try`/`catch` around `readFileSync` + `JSON.parse`), `some d` for the
parsed document.  An unversioned object is wrapped as
`{version: 1, models: data}`; a parsed array has no `version` property
and is wrapped the same way; `'version' in data` on a parsed primitive
throws a TypeError.  A missing `models` property reads as undefined
(null-conflated). -/
def readModels (dbPath : String) (parsed : Option JVal) : Except String JVal :=
  match parsed with
  | none => .ok (.jobj [])
  | some d =>
      match d with
      | .jobj fields =>
          match lookupField fields "version" with
          | none => .ok (.jobj fields)
          | some v =>
              match v with
              | .jnum q =>
                  if q = 1 then .ok ((lookupField fields "models").getD .jnull)
                  else .error ("unknown version for models " ++ dbPath ++ ".model.json")
              | _ => .error ("unknown version for models " ++ dbPath ++ ".model.json")
      | .jarr items => .ok (.jarr items)
      | _ => .error "TypeError: cannot use 'in' operator"

/-- Model of `write` from `model-reader.ts`: the serialized document always
carries `version: 1` with the models under `models`. -/
def writeModels (models : JVal) : JVal :=
  .jobj [("version", .jnum 1), ("models", models)]

/-! ## The driver's storage boundary (`SqliteOrm.serialize` / `deserialize`) -/

/-- Model of `SqliteOrm.serialize` (driver source): the per-column runtime type
check on write.  Null (or undefined) returns null before any check, for
every column type; the column's `nullable` flag is not a parameter.  The
`default: throw` arm is unreachable over the closed union. -/
def serialize (reg : Registry) (data : JSVal) (type : ColumnType) :
    Except String JSVal :=
  if isNullish data then .ok .vnull
  else
    match type with
    | .boolean =>
        if jsTypeof data == "boolean" then
          .ok (.vnum (if jsTruthy data then 1 else 0))
        else .error "Cannot store a non boolean type on a boolean column"
    | .string =>
        if jsTypeof data == "string" then .ok data
        else .error "Cannot store a non string type on a string column"
    | .number =>
        if jsTypeof data == "number" then .ok data
        else .error "Cannot store a non number type on a number column"
    | .integer =>
        if jsTypeof data == "number" && jsIsInteger data then .ok data
        else .error "Cannot store a non integer type on an integer column"
    | .blob =>
        if isUint8Array data then .ok data
        else .error "Cannot store a blob/u8int[] type on a blob column"
    | .json =>
        if jsTypeof data == "object" then
          Except.map (fun j => .vstr (jsonStringify j)) (jsonifyTop reg data)
        else .error "Cannot convert non object type into JSON"

/-- Model of `SqliteOrm.deserialize` (driver source): the per-column check on
read.  Null returns null before any check, for every column type; the
`nullable` flag is not a parameter.  `JSON.parse` (a language builtin) is
abstracted as the `parse` argument; both a parse failure and a failure
inside `dejsonify` surface as the invalid-JSON data error, matching the
`try` block.  The boolean and integer guards use `&&`, so any `number`
(integral or not) passes them. -/
def deserialize (reg : Registry) (parse : String → Except String JVal)
    (compatMode : Bool) (data : JSVal) (type : ColumnType) : Except String JSVal :=
  if isNullish data then .ok .vnull
  else
    match type with
    | .boolean =>
        if !(jsTypeof data == "number") && !(jsIsInteger data) then
          .error ("Column contains " ++ jsToString data ++ " instead of a boolean")
        else .ok (.vbool (isStrictNum data 1))
    | .string =>
        if jsTypeof data == "string" then .ok data
        else .error ("Column contains " ++ jsToString data ++ " instead of a string")
    | .number =>
        if jsTypeof data == "number" then .ok data
        else .error ("Column contains " ++ jsToString data ++ " instead of a number")
    | .integer =>
        if !(jsTypeof data == "number") && !(jsIsInteger data) then
          .error ("Column contains " ++ jsToString data ++ " instead of an integer")
        else .ok data
    | .blob =>
        if isUint8Array data then .ok data
        else .error ("Column contains " ++ jsTypeof data ++ " instead of a blob")
    | .json =>
        match data with
        | .vstr s =>
            match parse s with
            | .ok j =>
                match dejsonifyJ reg compatMode j with
                | .ok v => .ok v
                | .error _ => .error "Column contains invalid JSON data"
            | .error _ => .error "Column contains invalid JSON data"
        | _ => .error ("Column contains " ++ jsTypeof data ++ " instead of a JSON string")

/-- C1: whenever the primary-key column name of the existing (live) model
differs from that of the declared model, `buildAlterQuery` raises an
error and returns no ALTER statement; the builder is pure and the driver
only applies statements from the returned list, so the live schema is
unchanged.  (When the table names also differ, the internal table-name
error fires first — still an error and no statement.) -/
theorem claim_C1 (reg : Registry) (existingModel actualModel : Model)
    (h : ((existingModel.columns.find? (fun c => c.isPrimaryKey)).map (fun c => c.name))
      ≠ ((actualModel.columns.find? (fun c => c.isPrimaryKey)).map (fun c => c.name))) :
    ∃ e, buildAlterQuery reg existingModel actualModel = .error e := by
  unfold buildAlterQuery
  by_cases ht : existingModel.tableName ≠ actualModel.tableName
  · rw [if_pos ht]
    exact ⟨_, rfl⟩
  · rw [if_neg ht, if_pos h]
    exact ⟨_, rfl⟩

theorem claim_C1_witness :
    ∃ e, buildAlterQuery []
      ⟨"users", [⟨.integer, "oldId", none, false, .vnull, true, false⟩], "main"⟩
      ⟨"users", [⟨.integer, "newId", none, false, .vnull, true, false⟩], "main"⟩
      = .error e :=
  claim_C1 [] _ _ (by decide)

/-- C2: for a declared model with columns `a` (the primary key, matching
the live table's primary key) and `b`, and a live table whose
introspection lists only `a`, `buildAlterQuery` over the reconstructed
existing model succeeds with exactly one statement — the
`ADD COLUMN` for `b` — and no statement touching `a`. -/
theorem claim_C2 (reg : Registry) (t db : String) (ca cb : TableColumn) (da : IntroCol)
    (hname : da.name = ca.name)
    (hpk : da.pk = 1)
    (hcapk : ca.isPrimaryKey = true)
    (hcbpk : cb.isPrimaryKey = false)
    (hbne : cb.name ≠ ca.name)
    (hbmap : cb.mappedTo ≠ some ca.name)
    (cbq : String)
    (hcb : buildColumnQuery reg cb = .ok cbq) :
    buildAlterQuery reg (buildModelFromData ⟨t, [ca, cb], db⟩ [da]) ⟨t, [ca, cb], db⟩
      = .ok ["ALTER TABLE " ++ db ++ ".'" ++ t ++ "' ADD COLUMN " ++ cbq] := by
  have hfind : (⟨t, [ca, cb], db⟩ : Model).columns.find?
      (fun c => c.name == da.name || c.mappedTo == some da.name) = some ca := by
    simp [List.find?, hname]
  have hexist : buildModelFromData ⟨t, [ca, cb], db⟩ [da]
      = ⟨t, [⟨ca.type, da.name, ca.mappedTo, decide (da.notnull = (0 : Int)),
          da.dflt_value, decide (da.pk = (1 : Int)), ca.autoIncrement⟩], db⟩ := by
    simp only [buildModelFromData, List.filterMap, hfind]
    rfl
  rw [hexist]
  unfold buildAlterQuery
  rw [if_neg (by simp)]
  have hpkeq : decide (da.pk = (1 : Int)) = true := by simp [hpk]
  rw [if_neg (by
    simp only [List.find?, hpkeq, hcapk]
    simp [hname])]
  have hmatch1 : (ca.name == da.name) = true := by simp [hname]
  have hmatch2 : (da.name == cb.name) = false := by
    rw [hname]
    exact beq_eq_false_iff_ne.mpr (Ne.symm hbne)
  have hmatch3 : (some da.name == cb.mappedTo) = false := by
    rw [hname]
    exact beq_eq_false_iff_ne.mpr (fun hh => hbmap hh.symm)
  simp only [List.filter, List.find?, hname]
  simp only [beq_self_eq_true, Bool.true_or, Option.isNone_some, Bool.false_eq_true,
    hmatch2, hmatch3, Bool.or_self, Option.isNone_none]
  have hm2 : (ca.name == cb.name) = false := beq_eq_false_iff_ne.mpr (Ne.symm hbne)
  have hm3 : (some ca.name == cb.mappedTo) = false :=
    beq_eq_false_iff_ne.mpr (fun hh => hbmap hh.symm)
  simp [hm2, hm3, List.mapM, List.mapM.loop, hcb, Except.map]

theorem claim_C2_witness :
    buildAlterQuery []
      (buildModelFromData
        ⟨"users",
         [⟨.integer, "id", none, false, .vnull, true, true⟩,
          ⟨.string, "name", none, false, .vnull, false, false⟩], "main"⟩
        [⟨"id", .vnull, 1, 1⟩])
      ⟨"users",
       [⟨.integer, "id", none, false, .vnull, true, true⟩,
        ⟨.string, "name", none, false, .vnull, false, false⟩], "main"⟩
      = .ok ["ALTER TABLE main.'users' ADD COLUMN \"name\" TEXT NOT NULL   "] :=
  claim_C2 [] "users" "main" _ _ _ rfl rfl rfl rfl (by decide) (by decide) _ rfl

/-- C5 (counterexample): null passes the pre-flight guard on a
NON-nullable `json` column, because `typeof null === 'object'` satisfies
the json arm — contradicting "returns true for null only when the column
is nullable". -/
theorem claim_C5_counterexample :
    isProvidedTypeValid .vnull ⟨.json, "meta", none, false, .vnull, false, false⟩ = true
      ∧ (⟨.json, "meta", none, false, .vnull, false, false⟩ : TableColumn).nullable
          = false := by
  constructor
  · decide
  · rfl

/-- C5 (amended): the guard accepts null exactly when the column is
nullable OR the column type is `json` (typeof null is 'object'); rejects
every non-finite number on numeric columns; requires a safe integer for
`integer`; accepts booleans and the raw storage values 0/1 for
`boolean`; accepts any object or array for `json`; and requires a raw
byte buffer for `blob`. -/
theorem claim_C5 :
    (∀ col : TableColumn,
       isProvidedTypeValid .vnull col = (col.nullable || col.type == ColumnType.json)) ∧
    (∀ (col : TableColumn) (v : JSVal),
       (col.type = .number ∨ col.type = .integer) →
       (v = .vnan ∨ v = .vinf ∨ v = .vninf) →
       isProvidedTypeValid v col = false) ∧
    (∀ (col : TableColumn) (q : ℚ), col.type = .integer →
       (isProvidedTypeValid (.vnum q) col = true
         ↔ (q.den = 1 ∧ q.num.natAbs ≤ maxSafeInteger))) ∧
    (∀ (col : TableColumn) (v : JSVal), col.type = .boolean → v ≠ .vnull →
       (isProvidedTypeValid v col = true
         ↔ ((∃ b, v = .vbool b) ∨ v = .vnum 0 ∨ v = .vnum 1))) ∧
    (∀ (col : TableColumn) (v : JSVal), col.type = .json → v ≠ .vnull →
       (isProvidedTypeValid v col = true
         ↔ (jsTypeof v = "object" ∨ isJsArray v = true))) ∧
    (∀ (col : TableColumn) (v : JSVal), col.type = .blob →
       (isProvidedTypeValid v col = true
         ↔ (isUint8Array v = true ∨ (v = .vnull ∧ col.nullable = true)))) := by
  refine ⟨?_, ?_, ?_, ?_, ?_, ?_⟩
  · intro col
    obtain ⟨ty, nm, mt, nb, dv, pk, ai⟩ := col
    cases ty <;> cases nb <;> rfl
  · intro col v hty hv
    obtain ⟨ty, nm, mt, nb, dv, pk, ai⟩ := col
    rcases hty with rfl | rfl <;>
      rcases hv with rfl | rfl | rfl <;>
        simp [isProvidedTypeValid, isNullish, jsTypeof, jsIsFiniteNum]
  · intro col q hty
    obtain ⟨ty, nm, mt, nb, dv, pk, ai⟩ := col
    subst hty
    simp [isProvidedTypeValid, isNullish, jsTypeof, jsIsFiniteNum, jsIsSafeInteger]
  · intro col v hty hv
    obtain ⟨ty, nm, mt, nb, dv, pk, ai⟩ := col
    subst hty
    cases v <;>
      simp_all [isProvidedTypeValid, isNullish, jsTypeof, jsIsFiniteNum, isStrictNum]
  · intro col v hty hv
    obtain ⟨ty, nm, mt, nb, dv, pk, ai⟩ := col
    subst hty
    cases v <;>
      simp_all [isProvidedTypeValid, isNullish, jsTypeof, jsIsFiniteNum, isJsArray]
  · intro col v hty
    obtain ⟨ty, nm, mt, nb, dv, pk, ai⟩ := col
    subst hty
    cases v <;> cases nb <;>
      simp [isProvidedTypeValid, isNullish, jsTypeof, jsIsFiniteNum, isUint8Array]

theorem claim_C5_witness :
    isProvidedTypeValid (.vnum 7) ⟨.integer, "id", none, false, .vnull, true, false⟩
      = true :=
  (claim_C5.2.2.1 ⟨.integer, "id", none, false, .vnull, true, false⟩ 7 rfl).mpr
    (by constructor <;> decide)

/-! ## Placeholder counting -/

/-- The number of `?` placeholders in a piece of SQL text. -/
def countQ (s : String) : Nat := s.toList.count '?'

theorem countQ_append (a b : String) : countQ (a ++ b) = countQ a + countQ b := by
  simp [countQ, String.toList, String.data_append, List.count_append]

theorem countQ_intercalate_go (sep : String) (hsep : countQ sep = 0) :
    ∀ (l : List String) (acc : String),
      countQ (String.intercalate.go acc sep l) = countQ acc + (l.map countQ).sum := by
  intro l
  induction l with
  | nil => intro acc; simp [String.intercalate.go]
  | cons a as ih =>
      intro acc
      simp only [String.intercalate.go, ih, List.map_cons, List.sum_cons,
        countQ_append, hsep]
      omega

theorem countQ_intercalate (sep : String) (hsep : countQ sep = 0) (l : List String) :
    countQ (String.intercalate sep l) = (l.map countQ).sum := by
  cases l with
  | nil => simp [String.intercalate, countQ]
  | cons a as =>
      simp only [String.intercalate, countQ_intercalate_go sep hsep, List.map_cons,
        List.sum_cons]

/-! ## Insert/update loop characterizations -/

/-- Does a key match an autoincrement primary-key column? -/
def isAutoIncPkMatch (model : Model) (k : String) : Bool :=
  match findColumn model k with
  | some c => c.isPrimaryKey && c.autoIncrement
  | none => false

/-- Does a key match a primary-key column? -/
def isPkMatch (model : Model) (k : String) : Bool :=
  match findColumn model k with
  | some c => c.isPrimaryKey
  | none => false

/-- The physical name used in the update WHERE clause for a key. -/
def physName (model : Model) (k : String) : String :=
  match findColumn model k with
  | some c => c.mappedTo.getD c.name
  | none => "undefined"

theorem insertLoop_char (model : Model) :
    ∀ data : List (String × JSVal),
      (∀ kv ∈ data, (findColumn model kv.1).isSome = true) →
      insertLoop model data
        = .ok ((data.filter (fun kv => !(isAutoIncPkMatch model kv.1))).map Prod.fst,
            (data.filter (fun kv => !(isAutoIncPkMatch model kv.1))).map Prod.snd) := by
  intro data
  induction data with
  | nil => intro _; rfl
  | cons kv rest ih =>
      obtain ⟨col, value⟩ := kv
      intro h
      have hhead := h (col, value) (by simp)
      obtain ⟨mc, hmc⟩ := Option.isSome_iff_exists.mp hhead
      have hrest := ih (fun kv hkv => h kv (by simp [hkv]))
      simp only [insertLoop, hmc, hrest, exceptBindOk]
      by_cases hb : (mc.isPrimaryKey && mc.autoIncrement) = true
      · simp [hb, List.filter_cons, isAutoIncPkMatch, findColumn] at hmc ⊢
        simp [hmc, hb]
      · simp only [Bool.not_eq_true] at hb
        simp [hb, List.filter_cons, isAutoIncPkMatch, findColumn] at hmc ⊢
        simp [hmc, hb]

theorem updateLoop_nopk (model : Model) :
    ∀ data : List (String × JSVal),
      (∀ kv ∈ data, (findColumn model kv.1).isSome = true) →
      (∀ kv ∈ data, isPkMatch model kv.1 = false) →
      updateLoop model data = .ok (data.map Prod.fst, data.map Prod.snd, none, none) := by
  intro data
  induction data with
  | nil => intro _ _; rfl
  | cons kv rest ih =>
      obtain ⟨col, value⟩ := kv
      intro h hpk
      have hhead := h (col, value) (by simp)
      obtain ⟨mc, hmc⟩ := Option.isSome_iff_exists.mp hhead
      have hpkhead : mc.isPrimaryKey = false := by
        have := hpk (col, value) (by simp)
        simpa [isPkMatch, hmc] using this
      have hrest := ih (fun kv hkv => h kv (by simp [hkv]))
        (fun kv hkv => hpk kv (by simp [hkv]))
      simp [updateLoop, hmc, hrest, hpkhead]

theorem updateLoop_char (model : Model) :
    ∀ (data : List (String × JSVal)) (k0 : String) (v0 : JSVal),
      (∀ kv ∈ data, (findColumn model kv.1).isSome = true) →
      data.filter (fun kv => isPkMatch model kv.1) = [(k0, v0)] →
      updateLoop model data
        = .ok ((data.filter (fun kv => !(isPkMatch model kv.1))).map Prod.fst,
            (data.filter (fun kv => !(isPkMatch model kv.1))).map Prod.snd,
            some (physName model k0), some v0) := by
  intro data
  induction data with
  | nil => intro k0 v0 _ hone; simp at hone
  | cons kv rest ih =>
      obtain ⟨col, value⟩ := kv
      intro k0 v0 h hone
      have hhead := h (col, value) (by simp)
      obtain ⟨mc, hmc⟩ := Option.isSome_iff_exists.mp hhead
      have hrestsome : ∀ kv ∈ rest, (findColumn model kv.1).isSome = true :=
        fun kv hkv => h kv (by simp [hkv])
      by_cases hpk : isPkMatch model col = true
      · rw [List.filter_cons_of_pos (by simpa using hpk)] at hone
        have hhd : (col, value) = (k0, v0) := by
          have := List.head_eq_of_cons_eq hone
          exact this
        have htl : rest.filter (fun kv => isPkMatch model kv.1) = [] :=
          List.tail_eq_of_cons_eq hone
        have hnone : ∀ kv ∈ rest, isPkMatch model kv.1 = false := by
          intro kv hkv
          by_contra hc
          have : kv ∈ rest.filter (fun kv => isPkMatch model kv.1) :=
            List.mem_filter.mpr ⟨hkv, by simpa using hc⟩
          simp [htl] at this
        have hrest := updateLoop_nopk model rest hrestsome hnone
        have hpkmc : mc.isPrimaryKey = true := by
          simpa [isPkMatch, hmc] using hpk
        have hk0 : col = k0 := congrArg Prod.fst hhd
        have hv0 : value = v0 := congrArg Prod.snd hhd
        have hfilterpos : ((col, value) :: rest).filter
            (fun kv => !(isPkMatch model kv.1)) = rest.filter
            (fun kv => !(isPkMatch model kv.1)) := by
          simp [List.filter_cons, hpk]
        have hfilterrest : rest.filter (fun kv => !(isPkMatch model kv.1)) = rest :=
          List.filter_eq_self.mpr (fun kv hkv => by simp [hnone kv hkv])
        rw [hfilterpos, hfilterrest]
        simp only [updateLoop, hmc, hrest, exceptBindOk, hpkmc, if_true]
        simp only [← hk0, ← hv0]
        simp [physName, hmc]
      · simp only [Bool.not_eq_true] at hpk
        rw [List.filter_cons_of_neg (by simpa using hpk)] at hone
        have hrest := ih k0 v0 hrestsome hone
        have hmcpk : mc.isPrimaryKey = false := by
          simpa [isPkMatch, hmc] using hpk
        have hfilterneg : ((col, value) :: rest).filter
            (fun kv => !(isPkMatch model kv.1)) = (col, value) :: rest.filter
            (fun kv => !(isPkMatch model kv.1)) := by
          simp [List.filter_cons, hpk]
        rw [hfilterneg]
        simp [updateLoop, hmc, hrest, hmcpk]

/-- C6: for row data whose keys all match model columns, the built insert
statement's column list is exactly the supplied entries minus those
matching an autoincrement primary-key column (in order), its parameters
are the matching values, and its placeholder count equals the kept-column
count (so the autoincrement primary key is excluded from both the column
list and the placeholder count); and when exactly one entry matches a
primary-key column, the built update statement puts every other supplied
column into SET, uses the primary key's physical name as the sole WHERE
predicate with exactly one placeholder, and its parameters are the
non-key values followed by the key value last. -/
theorem claim_C6 (model : Model) (data : List (String × JSVal))
    (hmatch : ∀ kv ∈ data, (findColumn model kv.1).isSome = true) :
    (buildInsertQuery model data = .ok
      { query := "INSERT INTO '" ++ model.tableName ++ "' ("
          ++ String.intercalate ", "
            ((data.filter (fun kv => !(isAutoIncPkMatch model kv.1))).map Prod.fst)
          ++ ") VALUES ("
          ++ String.intercalate ", "
            (((data.filter (fun kv => !(isAutoIncPkMatch model kv.1))).map Prod.fst).map
              (fun _ => "?")) ++ ")"
        params := (data.filter (fun kv => !(isAutoIncPkMatch model kv.1))).map Prod.snd })
    ∧ (∀ kv ∈ data.filter (fun kv => !(isAutoIncPkMatch model kv.1)),
        isAutoIncPkMatch model kv.1 = false)
    ∧ (countQ model.tableName = 0 → (∀ kv ∈ data, countQ kv.1 = 0) →
        ∀ bq, buildInsertQuery model data = .ok bq →
          countQ bq.query
            = ((data.filter (fun kv => !(isAutoIncPkMatch model kv.1))).map Prod.fst).length)
    ∧ (∀ (k0 : String) (v0 : JSVal),
        data.filter (fun kv => isPkMatch model kv.1) = [(k0, v0)] →
        buildUpdateQuery model data = .ok
          { query := "UPDATE '" ++ model.tableName ++ "' SET "
              ++ String.intercalate ", "
                (((data.filter (fun kv => !(isPkMatch model kv.1))).map Prod.fst).map
                  (fun c => c ++ " = ?"))
              ++ " WHERE " ++ physName model k0 ++ " = ?"
            params := (data.filter (fun kv => !(isPkMatch model kv.1))).map Prod.snd
              ++ [v0] }
        ∧ (countQ (physName model k0) = 0 →
            countQ (" WHERE " ++ physName model k0 ++ " = ?") = 1)) := by
  refine ⟨?_, ?_, ?_, ?_⟩
  · simp [buildInsertQuery, insertLoop_char model data hmatch, Except.map]
  · intro kv hkv
    simpa using (List.mem_filter.mp hkv).2
  · intro h0 h1 bq hbq
    have hins := insertLoop_char model data hmatch
    simp only [buildInsertQuery, hins, Except.map, Except.ok.injEq] at hbq
    subst hbq
    simp only [countQ_append]
    have hsep : countQ ", " = 0 := by decide
    have hcols : countQ (String.intercalate ", "
        ((data.filter (fun kv => !(isAutoIncPkMatch model kv.1))).map Prod.fst)) = 0 := by
      rw [countQ_intercalate ", " hsep]
      apply List.sum_eq_zero
      intro x hx
      simp only [List.map_map, List.mem_map, Function.comp] at hx
      obtain ⟨kv, hkv, rfl⟩ := hx
      exact h1 kv (List.mem_of_mem_filter hkv)
    have hmarks : countQ (String.intercalate ", "
        (((data.filter (fun kv => !(isAutoIncPkMatch model kv.1))).map Prod.fst).map
          (fun _ => "?")))
        = ((data.filter (fun kv => !(isAutoIncPkMatch model kv.1))).map Prod.fst).length := by
      rw [countQ_intercalate ", " hsep, List.map_map]
      have : (((data.filter (fun kv => !(isAutoIncPkMatch model kv.1))).map Prod.fst).map
          (countQ ∘ fun _ => "?"))
          = List.replicate
              ((data.filter (fun kv => !(isAutoIncPkMatch model kv.1))).map Prod.fst).length
              1 := by
        apply List.map_const'
      rw [this, List.sum_replicate]
      simp
    rw [hcols, hmarks]
    have h2 : countQ "INSERT INTO '" = 0 := by decide
    have h3 : countQ "' (" = 0 := by decide
    have h4 : countQ ") VALUES (" = 0 := by decide
    have h5 : countQ ")" = 0 := by decide
    omega
  · intro k0 v0 hone
    constructor
    · simp [buildUpdateQuery, updateLoop_char model data k0 v0 hmatch hone, Except.map]
    · intro hphys
      simp only [countQ_append, hphys]
      decide

theorem claim_C6_witness :
    buildInsertQuery
      ⟨"users",
       [⟨.integer, "id", none, false, .vnull, true, true⟩,
        ⟨.string, "name", none, false, .vnull, false, false⟩], "main"⟩
      [("id", .vnum 5), ("name", .vstr "x")]
      = .ok ⟨"INSERT INTO 'users' (name) VALUES (?)", [.vstr "x"]⟩ ∧
    buildUpdateQuery
      ⟨"users",
       [⟨.integer, "id", none, false, .vnull, true, true⟩,
        ⟨.string, "name", none, false, .vnull, false, false⟩], "main"⟩
      [("id", .vnum 5), ("name", .vstr "x")]
      = .ok ⟨"UPDATE 'users' SET name = ? WHERE id = ?", [.vstr "x", .vnum 5]⟩ := by
  have h := claim_C6
    ⟨"users",
     [⟨.integer, "id", none, false, .vnull, true, true⟩,
      ⟨.string, "name", none, false, .vnull, false, false⟩], "main"⟩
    [("id", .vnum 5), ("name", .vstr "x")] (by decide)
  exact ⟨h.1, (h.2.2.2 "id" (.vnum 5) rfl).1⟩

/-! ## C7: aggregate statement layout -/

/-- Spec-shaped decomposition of the aggregate statement: the text before
the where clause (ending in ` WHERE ` exactly when a where part is
supplied). -/
def aggPre (q : AggregateSelectQuery) (m : Model) : String :=
  "SELECT " ++ q.select ++ " FROM " ++ m.database ++ ".'" ++ m.tableName ++ "'"
    ++ (match q.whereQ with | some _ => " WHERE " | none => "")

/-- The supplied where clause text (empty when absent). -/
def aggWhereClause (q : AggregateSelectQuery) : String :=
  match q.whereQ with | some w => w.clause | none => ""

/-- The text between the where clause and the having clause: the GROUP BY
fragment and the ` HAVING ` keyword when supplied. -/
def aggMid (q : AggregateSelectQuery) : String :=
  (match q.group with
    | some g => " GROUP BY " ++ String.intercalate ", " g
    | none => "")
  ++ (match q.having with | some _ => " HAVING " | none => "")

/-- The supplied having clause text (empty when absent). -/
def aggHavingClause (q : AggregateSelectQuery) : String :=
  match q.having with | some h => h.clause | none => ""

/-- The text after the having clause: ORDER BY, then LIMIT and OFFSET —
the latter two present iff supplied AND non-zero (JavaScript truthiness). -/
def aggPost (q : AggregateSelectQuery) : String :=
  (match q.order with | some o => " " ++ orderFragment o | none => "")
  ++ (match q.limit with
      | some l => if l ≠ 0 then " LIMIT " ++ jsNumToString l else ""
      | none => "")
  ++ (match q.offset with
      | some l => if l ≠ 0 then " OFFSET " ++ jsNumToString l else ""
      | none => "")

/-- Helper for reasoning about space joins: used with
`String.intercalate " "`. -/
def joinSpace : List String → String
  | [] => ""
  | b :: t => " " ++ b ++ joinSpace t

theorem intercalate_go_joinSpace :
    ∀ (l : List String) (acc : String),
      String.intercalate.go acc " " l = acc ++ joinSpace l := by
  intro l
  induction l with
  | nil => intro acc; simp [String.intercalate.go, joinSpace]
  | cons b t ih =>
      intro acc
      simp [String.intercalate.go, joinSpace, ih, String.append_assoc]

theorem intercalate_space (a : String) (l : List String) :
    String.intercalate " " (a :: l) = a ++ joinSpace l := by
  simp [String.intercalate, intercalate_go_joinSpace]

theorem joinSpace_append :
    ∀ a b : List String, joinSpace (a ++ b) = joinSpace a ++ joinSpace b := by
  intro a
  induction a with
  | nil => intro b; simp [joinSpace]
  | cons x t ih => intro b; simp [joinSpace, ih, String.append_assoc]

/-- C7 (counterexample): a supplied `limit: 0` emits no LIMIT clause —
`if (query.limit)` is JavaScript truthiness, and 0 is falsy — so "each
optional part present iff supplied" fails as stated. -/
theorem claim_C7_counterexample :
    (⟨"COUNT(*)", none, none, none, none, some 0, none⟩
        : AggregateSelectQuery).limit = some 0 ∧
    buildAggregateQuery ⟨"COUNT(*)", none, none, none, none, some 0, none⟩
        ⟨"t", [], "main"⟩
      = ⟨"SELECT COUNT(*) FROM main.'t'", []⟩ ∧
    ¬ List.IsInfix "LIMIT".toList ("SELECT COUNT(*) FROM main.'t'").toList := by
  refine ⟨rfl, rfl, by decide⟩

theorem fuse_WHERE (x : String) : " " ++ ("WHERE " ++ x) = " WHERE " ++ x := rfl

theorem fuse_GROUP (x : String) : " " ++ ("GROUP BY " ++ x) = " GROUP BY " ++ x := rfl

theorem fuse_HAVING (x : String) : " " ++ ("HAVING " ++ x) = " HAVING " ++ x := rfl

theorem fuse_LIMIT (x : String) : " " ++ ("LIMIT " ++ x) = " LIMIT " ++ x := rfl

theorem fuse_OFFSET (x : String) : " " ++ ("OFFSET " ++ x) = " OFFSET " ++ x := rfl

/-- C7 (amended): the aggregate statement is laid out in the order
SELECT, FROM, WHERE, GROUP BY, HAVING, ORDER BY, LIMIT, OFFSET, each
optional part present iff supplied — except that a supplied zero
`limit`/`offset` is dropped (JavaScript truthiness); the parameter list
is the where values followed by the having values; and (placeholder
order) every `?` of the emitted text lies inside the where clause
followed by the having clause, the surrounding text being
placeholder-free whenever the caller-supplied identifiers are. -/
theorem claim_C7 (q : AggregateSelectQuery) (m : Model) :
    (buildAggregateQuery q m).query
      = aggPre q m ++ aggWhereClause q ++ aggMid q ++ aggHavingClause q ++ aggPost q
    ∧ (buildAggregateQuery q m).params
      = (match q.whereQ with | some w => w.values.getD [] | none => [])
        ++ (match q.having with | some h => h.values.getD [] | none => [])
    ∧ (countQ q.select = 0 → countQ m.database = 0 → countQ m.tableName = 0 →
       (∀ g, q.group = some g → ∀ s ∈ g, countQ s = 0) →
       (∀ o, q.order = some o → countQ o.by' = 0) →
       (∀ l, q.limit = some l → countQ (jsNumToString l) = 0) →
       (∀ l, q.offset = some l → countQ (jsNumToString l) = 0) →
       countQ (aggPre q m) = 0 ∧ countQ (aggMid q) = 0 ∧ countQ (aggPost q) = 0
       ∧ countQ (buildAggregateQuery q m).query
           = countQ (aggWhereClause q) + countQ (aggHavingClause q)) := by
  obtain ⟨sel, wq, gq, hv, oq, lq, og⟩ := q
  have hquery : (buildAggregateQuery ⟨sel, wq, gq, hv, oq, lq, og⟩ m).query
      = aggPre ⟨sel, wq, gq, hv, oq, lq, og⟩ m
        ++ aggWhereClause ⟨sel, wq, gq, hv, oq, lq, og⟩
        ++ aggMid ⟨sel, wq, gq, hv, oq, lq, og⟩
        ++ aggHavingClause ⟨sel, wq, gq, hv, oq, lq, og⟩
        ++ aggPost ⟨sel, wq, gq, hv, oq, lq, og⟩ := by
    rcases wq with _ | w <;> rcases gq with _ | g <;> rcases hv with _ | h <;>
      rcases oq with _ | o <;> rcases lq with _ | l <;> rcases og with _ | f <;>
        simp only [buildAggregateQuery, aggPre, aggWhereClause, aggMid,
          aggHavingClause, aggPost, List.singleton_append, List.cons_append,
          List.nil_append, List.append_nil, intercalate_space, joinSpace_append,
          joinSpace, String.append_assoc] <;>
          (try split_ifs) <;>
            simp [joinSpace, String.append_assoc, fuse_WHERE, fuse_GROUP,
              fuse_HAVING, fuse_LIMIT, fuse_OFFSET]
  refine ⟨hquery, ?_, ?_⟩
  · rcases wq with _ | w <;> rcases hv with _ | h <;> simp [buildAggregateQuery]
  · intro h1 h2 h3 hg ho hlim hoff
    have hpre : countQ (aggPre ⟨sel, wq, gq, hv, oq, lq, og⟩ m) = 0 := by
      rcases wq with _ | w <;>
        simp_all [aggPre, countQ_append] <;> decide
    have hmid : countQ (aggMid ⟨sel, wq, gq, hv, oq, lq, og⟩) = 0 := by
      rcases gq with _ | g <;> rcases hv with _ | h <;>
        simp only [aggMid, countQ_append] <;>
          first
          | decide
          | (have hgs : ∀ s ∈ g, countQ s = 0 := hg g rfl
             rw [countQ_intercalate ", " (by decide)]
             have hsum : (g.map countQ).sum = 0 := by
               apply List.sum_eq_zero
               intro x hx
               simp only [List.mem_map] at hx
               obtain ⟨s2, hs2, rfl⟩ := hx
               exact hgs s2 hs2
             rw [hsum]
             decide)
    have hpost : countQ (aggPost ⟨sel, wq, gq, hv, oq, lq, og⟩) = 0 := by
      rcases oq with _ | o <;> rcases lq with _ | l <;> rcases og with _ | f <;>
        simp only [aggPost, orderFragment, countQ_append] <;>
          (try split_ifs) <;>
            (try have hby : countQ o.by' = 0 := ho o rfl) <;>
              (try have hjl : countQ (jsNumToString l) = 0 := hlim l rfl) <;>
                (try have hjf : countQ (jsNumToString f) = 0 := hoff f rfl) <;>
                  simp_all [countQ_append] <;> decide
    refine ⟨hpre, hmid, hpost, ?_⟩
    rw [hquery]
    simp only [countQ_append, hpre, hmid, hpost]
    omega

theorem claim_C7_witness :
    countQ (aggPre
      ⟨"COUNT(*)", some ⟨"x > ?", some [.vnum 1]⟩, some ["grp"],
       some ⟨"SUM(x) > ?", some [.vnum 2]⟩, some ⟨"grp", some true⟩, some 10, some 5⟩
      ⟨"t", [], "main"⟩) = 0 ∧
    countQ (aggMid
      ⟨"COUNT(*)", some ⟨"x > ?", some [.vnum 1]⟩, some ["grp"],
       some ⟨"SUM(x) > ?", some [.vnum 2]⟩, some ⟨"grp", some true⟩, some 10, some 5⟩) = 0 ∧
    countQ (aggPost
      ⟨"COUNT(*)", some ⟨"x > ?", some [.vnum 1]⟩, some ["grp"],
       some ⟨"SUM(x) > ?", some [.vnum 2]⟩, some ⟨"grp", some true⟩, some 10, some 5⟩) = 0 ∧
    countQ (buildAggregateQuery
      ⟨"COUNT(*)", some ⟨"x > ?", some [.vnum 1]⟩, some ["grp"],
       some ⟨"SUM(x) > ?", some [.vnum 2]⟩, some ⟨"grp", some true⟩, some 10, some 5⟩
      ⟨"t", [], "main"⟩).query
      = countQ (aggWhereClause
          ⟨"COUNT(*)", some ⟨"x > ?", some [.vnum 1]⟩, some ["grp"],
           some ⟨"SUM(x) > ?", some [.vnum 2]⟩, some ⟨"grp", some true⟩, some 10, some 5⟩)
        + countQ (aggHavingClause
          ⟨"COUNT(*)", some ⟨"x > ?", some [.vnum 1]⟩, some ["grp"],
           some ⟨"SUM(x) > ?", some [.vnum 2]⟩, some ⟨"grp", some true⟩, some 10,
           some 5⟩) :=
  (claim_C7 _ _).2.2 (by decide) (by decide) (by decide)
    (fun g hg => by injection hg with h2; subst h2; decide)
    (fun o ho => by injection ho with h2; subst h2; decide)
    (fun l hl => by injection hl with h2; subst h2; decide)
    (fun l hl => by injection hl with h2; subst h2; decide)

/-- C8: a parsed snapshot `{version: 1, models: M}` yields `M`; an
unversioned legacy object (no `version` property) is accepted whole as
the model mapping; any other `version` value is a fatal read error; an
absent or unparseable file yields the empty model set without error. -/
theorem claim_C8 (dbPath : String) :
    (∀ (fields : List (String × JVal)) (M : JVal),
       lookupField fields "version" = some (.jnum 1) →
       lookupField fields "models" = some M →
       readModels dbPath (some (.jobj fields)) = .ok M) ∧
    (∀ fields : List (String × JVal),
       lookupField fields "version" = none →
       readModels dbPath (some (.jobj fields)) = .ok (.jobj fields)) ∧
    (∀ (fields : List (String × JVal)) (v : JVal),
       lookupField fields "version" = some v → v ≠ .jnum 1 →
       ∃ e, readModels dbPath (some (.jobj fields)) = .error e) ∧
    readModels dbPath none = .ok (.jobj []) := by
  refine ⟨?_, ?_, ?_, rfl⟩
  · intro fields M h1 h2
    simp [readModels, h1, h2]
  · intro fields h1
    simp [readModels, h1]
  · intro fields v h1 h2
    simp only [readModels, h1]
    cases v with
    | jnum q =>
        have hq2 : ¬ (q = 1) := fun hq => h2 (by rw [hq])
        simp [hq2]
    | jnull => exact ⟨_, rfl⟩
    | jbool b => exact ⟨_, rfl⟩
    | jnan => exact ⟨_, rfl⟩
    | jinf => exact ⟨_, rfl⟩
    | jninf => exact ⟨_, rfl⟩
    | jstr s => exact ⟨_, rfl⟩
    | jarr items => exact ⟨_, rfl⟩
    | jobj fs => exact ⟨_, rfl⟩

theorem claim_C8_witness :
    readModels "db" (some (.jobj [("version", .jnum 1),
        ("models", .jobj [("User", .jstr "model")])]))
      = .ok (.jobj [("User", .jstr "model")]) ∧
    readModels "db" (some (.jobj [("User", .jstr "model")]))
      = .ok (.jobj [("User", .jstr "model")]) ∧
    (∃ e, readModels "db" (some (.jobj [("version", .jnum 2), ("models", .jobj [])]))
      = .error e) := by
  refine ⟨?_, ?_, ?_⟩
  · exact (claim_C8 "db").1 _ _ rfl rfl
  · exact (claim_C8 "db").2.1 _ rfl
  · exact (claim_C8 "db").2.2.1 _ (.jnum 2) rfl (by
      intro h
      injection h with h2
      exact absurd h2 (by norm_num))

/-- C9: for every column type, the driver's storage-boundary `serialize`
and `deserialize` map null (undefined conflated) to null and return
without error — before any type check runs.  The column's `nullable`
flag is not even a parameter of either function, so it is never
consulted at this boundary, and a null on a non-nullable column passes
the runtime type check. -/
theorem claim_C9 (reg : Registry) (parse : String → Except String JVal)
    (compat : Bool) (t : ColumnType) :
    serialize reg .vnull t = .ok .vnull ∧
    deserialize reg parse compat .vnull t = .ok .vnull := by
  constructor <;> rfl

/-- C10: the built select, delete, count and aggregate statements qualify
the table as `<database>.'<tableName>'`, while the built insert and
update statements name only `'<tableName>'`; for a model whose database
is `aux` (not the default), the insert text does not mention `aux` at
all while the select text targets `aux.'t'` — a different namespace. -/
theorem claim_C10 :
    (∀ (q : SelectQuery) (m : Model), ∃ rest,
       (buildSelectQuery q m).query
         = "SELECT * FROM " ++ m.database ++ ".'" ++ m.tableName ++ "' " ++ rest) ∧
    (∀ (q : SelectQuery) (m : Model), ∃ rest,
       (buildDeleteQuery q m).query
         = "DELETE FROM " ++ m.database ++ ".'" ++ m.tableName ++ "' " ++ rest) ∧
    (∀ (w : WherePart) (m : Model), ∃ rest,
       (buildCountWhereQuery w m).query
         = "SELECT COUNT(*) FROM " ++ m.database ++ ".'" ++ m.tableName
             ++ "' WHERE " ++ rest) ∧
    (∀ (q : AggregateSelectQuery) (m : Model), ∃ rest,
       (buildAggregateQuery q m).query
         = "SELECT " ++ q.select ++ " FROM " ++ m.database ++ ".'" ++ m.tableName
             ++ "'" ++ rest) ∧
    (∀ (m : Model) (data : List (String × JSVal)) (bq : BuiltQuery),
       buildInsertQuery m data = .ok bq →
       ∃ rest, bq.query = "INSERT INTO '" ++ m.tableName ++ "' (" ++ rest) ∧
    (∀ (m : Model) (data : List (String × JSVal)) (bq : BuiltQuery),
       buildUpdateQuery m data = .ok bq →
       ∃ rest, bq.query = "UPDATE '" ++ m.tableName ++ "' SET " ++ rest) ∧
    (buildInsertQuery ⟨"t", [⟨.string, "name", none, false, .vnull, false, false⟩], "aux"⟩
        [("name", .vstr "x")]
      = .ok ⟨"INSERT INTO 't' (name) VALUES (?)", [.vstr "x"]⟩) ∧
    ¬ List.IsInfix "aux".toList ("INSERT INTO 't' (name) VALUES (?)").toList ∧
    (buildSelectQuery ⟨none, none, none, none⟩
        ⟨"t", [⟨.string, "name", none, false, .vnull, false, false⟩], "aux"⟩).query
      = "SELECT * FROM aux.'t' " := by
  refine ⟨?_, ?_, ?_, ?_, ?_, ?_, rfl, by decide, rfl⟩
  · intro q m
    exact ⟨(buildBaseFilterQuery q).query, by simp [buildSelectQuery, String.append_assoc]⟩
  · intro q m
    exact ⟨(buildBaseFilterQuery q).query, by simp [buildDeleteQuery, String.append_assoc]⟩
  · intro w m
    exact ⟨w.clause, by simp [buildCountWhereQuery, String.append_assoc]⟩
  · intro q m
    refine ⟨joinSpace (((match q.whereQ with
        | some w => ["WHERE " ++ w.clause] | none => [])
      ++ (match q.group with
          | some g => ["GROUP BY " ++ String.intercalate ", " g] | none => [])
      ++ (match q.having with | some h => ["HAVING " ++ h.clause] | none => [])
      ++ (match q.order with | some o => [orderFragment o] | none => [])
      ++ (match q.limit with
          | some l => if l ≠ 0 then ["LIMIT " ++ jsNumToString l] else []
          | none => [])
      ++ (match q.offset with
          | some l => if l ≠ 0 then ["OFFSET " ++ jsNumToString l] else []
          | none => []))), ?_⟩
    simp [buildAggregateQuery, intercalate_space, String.append_assoc]
  · intro m data bq h
    cases hloop : insertLoop m data with
    | error e => simp [buildInsertQuery, hloop, Except.map] at h
    | ok cp =>
        simp only [buildInsertQuery, hloop, Except.map, Except.ok.injEq] at h
        subst h
        exact ⟨String.intercalate ", " cp.1
          ++ (") VALUES (" ++ (String.intercalate ", " (cp.1.map (fun _ => "?")) ++ ")")),
          by simp [String.append_assoc]⟩
  · intro m data bq h
    cases hloop : updateLoop m data with
    | error e => simp [buildUpdateQuery, hloop, Except.map] at h
    | ok r =>
        simp only [buildUpdateQuery, hloop, Except.map, Except.ok.injEq] at h
        subst h
        exact ⟨String.intercalate ", " (r.1.map (fun c => c ++ " = ?"))
          ++ (" WHERE " ++ (r.2.2.1.getD "undefined" ++ " = ?")),
          by simp [String.append_assoc]⟩

theorem claim_C10_witness :
    (∃ rest,
      (buildSelectQuery ⟨none, none, none, none⟩
          ⟨"t", [⟨.string, "name", none, false, .vnull, false, false⟩], "aux"⟩).query
        = "SELECT * FROM " ++ "aux" ++ ".'" ++ "t" ++ "' " ++ rest) ∧
    (∃ rest,
      (⟨"INSERT INTO 't' (name) VALUES (?)", [JSVal.vstr "x"]⟩ : BuiltQuery).query
        = "INSERT INTO '" ++ "t" ++ "' (" ++ rest) ∧
    (∃ rest,
      (⟨"UPDATE 't' SET name = ? WHERE undefined = ?",
          [JSVal.vstr "x", JSVal.vnull]⟩ : BuiltQuery).query
        = "UPDATE '" ++ "t" ++ "' SET " ++ rest) :=
  ⟨claim_C10.1 ⟨none, none, none, none⟩
    ⟨"t", [⟨.string, "name", none, false, .vnull, false, false⟩], "aux"⟩,
   claim_C10.2.2.2.2.1
    ⟨"t", [⟨.string, "name", none, false, .vnull, false, false⟩], "aux"⟩
    [("name", .vstr "x")] _ rfl,
   claim_C10.2.2.2.2.2.1
    ⟨"t", [⟨.string, "name", none, false, .vnull, false, false⟩], "aux"⟩
    [("name", .vstr "x")] _ rfl⟩
